import Mathlib

/-!
Verification of the SonicNet mesh core (packet model, packet manager,
priority queue, BLE chunk reassembly, transport receive steps, server
uploader) against its natural-language specification.

The Python source is shallowly embedded: classes become structures,
methods become pure functions, and the mutable `PacketManager` becomes
explicit state passing.  Python dicts are modelled as association lists
that preserve insertion order (as CPython dicts do); Python sets are
modelled as duplicate-free lists where only membership is observed.
Environment inputs (`time.time()`, `uuid.uuid4()`, SHA-256 / MD5
digests, float formatting) are passed as explicit parameters or
modelled by concrete deterministic functions; no proof depends on
anything beyond their determinism.  Float-valued data (coordinates,
signal strength, battery) is modelled as rationals, which are never
computed with; float-valued clock readings, which the source only
subtracts and compares, are modelled as integers.
-/

/-- Association-list update with Python-dict semantics: an existing key
keeps its position and gets the new value, a new key is appended. -/
def dictSet {α : Type} (k : String) (v : α) : List (String × α) → List (String × α)
  | [] => [(k, v)]
  | (k', v') :: rest =>
      if k' = k then (k, v) :: rest else (k', v') :: dictSet k v rest

/-- Association-list deletion of a key (`del d[k]`). -/
def dictErase {α : Type} (k : String) : List (String × α) → List (String × α)
  | [] => []
  | (k', v') :: rest =>
      if k' = k then rest else (k', v') :: dictErase k rest

/-- Association-list update keyed by `Nat` (used for the BLE chunk buffers,
which are Python dicts keyed by the chunk number). -/
def natDictSet {α : Type} (k : Nat) (v : α) : List (Nat × α) → List (Nat × α)
  | [] => [(k, v)]
  | (k', v') :: rest =>
      if k' = k then (k, v) :: rest else (k', v') :: natDictSet k v rest

/-- The `PacketType` enum of `packet.py`. -/
inductive PacketType
  | SOS
  | STATUS_UPDATE
  | ALL_CLEAR
  | HEARTBEAT
  | ACK
deriving DecidableEq, Repr

/-- The wire value of a `PacketType` (its `.value` in the source). -/
def PacketType.value : PacketType → String
  | .SOS => "SOS"
  | .STATUS_UPDATE => "STATUS_UPDATE"
  | .ALL_CLEAR => "ALL_CLEAR"
  | .HEARTBEAT => "HEARTBEAT"
  | .ACK => "ACK"

/-- Python `PacketType(s)`: parse a wire value, raising (here: `none`) on an
unknown value. -/
def PacketType.fromValue (s : String) : Option PacketType :=
  if s = "SOS" then some .SOS
  else if s = "STATUS_UPDATE" then some .STATUS_UPDATE
  else if s = "ALL_CLEAR" then some .ALL_CLEAR
  else if s = "HEARTBEAT" then some .HEARTBEAT
  else if s = "ACK" then some .ACK
  else none

/-- The `UrgencyLevel` enum of `packet.py`. -/
inductive UrgencyLevel
  | CRITICAL
  | HIGH
  | MEDIUM
  | LOW
deriving DecidableEq, Repr

/-- The wire value of an `UrgencyLevel`. -/
def UrgencyLevel.value : UrgencyLevel → String
  | .CRITICAL => "CRITICAL"
  | .HIGH => "HIGH"
  | .MEDIUM => "MEDIUM"
  | .LOW => "LOW"

/-- Python `UrgencyLevel(s)`. -/
def UrgencyLevel.fromValue (s : String) : Option UrgencyLevel :=
  if s = "CRITICAL" then some .CRITICAL
  else if s = "HIGH" then some .HIGH
  else if s = "MEDIUM" then some .MEDIUM
  else if s = "LOW" then some .LOW
  else none

/-- `GPSLocation` from `packet.py`.  Coordinates are modelled as rationals, the clock reading as an integer. -/
structure GPSLocation where
  latitude : Rat
  longitude : Rat
  altitude : Option Rat
  accuracy : Option Rat
  timestamp : Int
deriving DecidableEq, Repr

/-- The `GPSLocation.__init__` constructor; `now` models `time.time()`. -/
def GPSLocation.make (latitude longitude : Rat) (altitude accuracy : Option Rat)
    (now : Int) : GPSLocation :=
  { latitude := latitude, longitude := longitude, altitude := altitude,
    accuracy := accuracy, timestamp := now }

/-- The dictionary produced by `GPSLocation.to_dict` (all five keys are
always present). -/
structure GPSDict where
  latitude : Rat
  longitude : Rat
  altitude : Option Rat
  accuracy : Option Rat
  timestamp : Int
deriving DecidableEq, Repr

/-- `GPSLocation.to_dict`. -/
def GPSLocation.to_dict (g : GPSLocation) : GPSDict :=
  { latitude := g.latitude, longitude := g.longitude, altitude := g.altitude,
    accuracy := g.accuracy, timestamp := g.timestamp }

/-- `GPSLocation.from_dict`: calls the constructor (whose `time.time()` is
modelled by `now`), then overwrites the timestamp from the dict. -/
def GPSLocation.from_dict (now : Int) (d : GPSDict) : GPSLocation :=
  { GPSLocation.make d.latitude d.longitude d.altitude d.accuracy now with
    timestamp := d.timestamp }

/-- `MediaAttachment` from `packet.py`; `data` is the raw byte string,
`size` and `checksum` are the values computed at construction. -/
structure MediaAttachment where
  data : List Nat
  media_type : String
  filename : String
  size : Nat
  checksum : String
deriving DecidableEq, Repr

/-- The `MediaAttachment.__init__` constructor.  `genName` models the
generated `attachment_<uuid>` default filename, `md5` the MD5 hex digest.
Python uses `filename or <default>`, so an empty or absent filename is
replaced. -/
def MediaAttachment.make (data : List Nat) (media_type : String)
    (filename : Option String) (genName : String) (md5 : List Nat → String) :
    MediaAttachment :=
  let fn := match filename with
    | some f => if f = "" then genName else f
    | none => genName
  { data := data, media_type := media_type, filename := fn,
    size := data.length, checksum := md5 data }

/-- The dictionary produced by `MediaAttachment.to_dict`.  The base64
encoding of `data` is elided: `b64decode` after `b64encode` is the
identity on bytes, and no claim inspects the encoded text. -/
structure AttachmentDict where
  data : List Nat
  media_type : String
  filename : String
  size : Nat
  checksum : String
deriving DecidableEq, Repr

/-- `MediaAttachment.to_dict`. -/
def MediaAttachment.to_dict (a : MediaAttachment) : AttachmentDict :=
  { data := a.data, media_type := a.media_type, filename := a.filename,
    size := a.size, checksum := a.checksum }

/-- `MediaAttachment.from_dict`: re-runs the constructor on the decoded
data; `size` and `checksum` are recomputed, the stored ones are ignored. -/
def MediaAttachment.from_dict (d : AttachmentDict) (genName : String)
    (md5 : List Nat → String) : MediaAttachment :=
  MediaAttachment.make d.data d.media_type (some d.filename) genName md5

/-- The `location` argument of the `SOSPacket` constructor: Python allows
`None`, a plain string, or a `GPSLocation`. -/
inductive LocationArg
  | noLoc
  | text (s : String)
  | gps (g : GPSLocation)
deriving DecidableEq, Repr

/-- Models the Python f-string `f"{lat:.6f}, {lon:.6f}"` used for
`location_text`.  All proofs rely only on this being a deterministic
function of the two coordinates, which the Python formatting also is. -/
def formatCoords (lat lon : Rat) : String :=
  toString lat ++ ", " ++ toString lon

/-- `SOSPacket` from `packet.py`.  `ttl` is a Python int (it is decremented
without a floor in `increment_hop`), hence `Int`; `signal_strength` is a
dict from node id to float. -/
structure SOSPacket where
  sender_id : String
  message : String
  packet_type : PacketType
  urgency : UrgencyLevel
  timestamp : Int
  thread_id : String
  location_text : String
  gps_location : Option GPSLocation
  packet_id : String
  hop_count : Nat
  relay_path : List String
  ttl : Int
  media_attachments : List MediaAttachment
  requires_ack : Bool
  ack_received : Bool
  ack_nodes : List String
  received_via : List String
  signal_strength : List (String × Rat)
  battery_level : Option Rat
deriving DecidableEq, Repr

/-- `SOSPacket._calculate_ttl`: the urgency-to-TTL map (the `.get`
default `10` is unreachable since the enum is total). -/
def calculate_ttl (urgency : UrgencyLevel) : Int :=
  match urgency with
  | .CRITICAL => 20
  | .HIGH => 15
  | .MEDIUM => 10
  | .LOW => 5

/-- The `SOSPacket.__init__` constructor.  `hashFn` models the SHA-256
hex digest truncated to 16 characters used by `_generate_packet_id`;
`now` models `time.time()`; `freshThread` models `str(uuid.uuid4())`.
Python computes `thread_id or str(uuid.uuid4())`, so an absent or empty
thread id is replaced by the fresh UUID. -/
def mkSOSPacket (hashFn : String → String) (now : Int) (freshThread : String)
    (sender_id message : String) (location : LocationArg)
    (urgency : UrgencyLevel) (packet_type : PacketType)
    (thread_id : Option String) : SOSPacket :=
  let tid := match thread_id with
    | some t => if t = "" then freshThread else t
    | none => freshThread
  let (location_text, gps_location) := match location with
    | .text s => (s, none)
    | .gps g => (formatCoords g.latitude g.longitude, some g)
    | .noLoc => ("Unknown", none)
  { sender_id := sender_id
    message := message
    packet_type := packet_type
    urgency := urgency
    timestamp := now
    thread_id := tid
    location_text := location_text
    gps_location := gps_location
    packet_id := hashFn (sender_id ++ ":" ++ message ++ ":" ++ toString now ++ ":" ++ tid)
    hop_count := 0
    relay_path := [sender_id]
    ttl := calculate_ttl urgency
    media_attachments := []
    requires_ack := packet_type = PacketType.SOS
    ack_received := false
    ack_nodes := []
    received_via := []
    signal_strength := []
    battery_level := none }

/-- `SOSPacket.can_relay`: `self.ttl > 0 and self.hop_count < self.ttl`.
Note that the comparison is against the current `ttl` field, not against
the initial urgency-derived TTL. -/
def SOSPacket.can_relay (p : SOSPacket) : Bool :=
  0 < p.ttl && (p.hop_count : Int) < p.ttl

/-- `SOSPacket.get_priority_score`. -/
def SOSPacket.get_priority_score (p : SOSPacket) : Int :=
  let base_score : Int := match p.urgency with
    | .CRITICAL => 1000
    | .HIGH => 100
    | .MEDIUM => 10
    | .LOW => 1
  let freshness_bonus : Int := max 0 (20 - (p.hop_count : Int))
  let ack_bonus : Int := if p.requires_ack && !p.ack_received then 50 else 0
  base_score + freshness_bonus + ack_bonus

/-- `SOSPacket.increment_hop`: bump `hop_count`, decrement `ttl`, extend
`relay_path` and `received_via` if absent (Python tests the transport tag
for truthiness, so an empty tag is ignored), record signal strength. -/
def SOSPacket.increment_hop (p : SOSPacket) (node_id : String)
    (transport_type : Option String) (sig : Option Rat) : SOSPacket :=
  let p := { p with hop_count := p.hop_count + 1, ttl := p.ttl - 1 }
  let p := if node_id ∈ p.relay_path then p
           else { p with relay_path := p.relay_path ++ [node_id] }
  let p := match transport_type with
    | some t =>
        if t ≠ "" && !(p.received_via.contains t) then
          { p with received_via := p.received_via ++ [t] }
        else p
    | none => p
  match sig with
  | some s => { p with signal_strength := dictSet node_id s p.signal_strength }
  | none => p

/-- `SOSPacket.add_acknowledgment`. -/
def SOSPacket.add_acknowledgment (p : SOSPacket) (node_id : String) : SOSPacket :=
  let p := if node_id ∈ p.ack_nodes then p
           else { p with ack_nodes := p.ack_nodes ++ [node_id] }
  if p.requires_ack && p.ack_nodes.length > 0 then
    { p with ack_received := true }
  else p

/-- `SOSPacket.create_ack_packet`: a fresh `ACK` packet with inherited
thread id and `requires_ack` forced off. -/
def SOSPacket.create_ack_packet (p : SOSPacket) (hashFn : String → String)
    (now : Int) (freshThread : String) (ack_sender_id : String) : SOSPacket :=
  let ack := mkSOSPacket hashFn now freshThread ack_sender_id
    ("ACK for " ++ p.packet_id) LocationArg.noLoc UrgencyLevel.LOW
    PacketType.ACK (some p.thread_id)
  { ack with requires_ack := false }

/-- The dictionary produced by `SOSPacket.to_dict`: one field per key the
source always emits, plus the conditionally emitted `gps_location`.
`SOSPacket.from_dict` is only ever applied to such dictionaries, so the
`.get` defaults of the source for always-present keys do not appear. -/
structure PacketDict where
  packet_id : String
  sender_id : String
  message : String
  packet_type : String
  urgency : String
  location_text : String
  timestamp : Int
  hop_count : Nat
  relay_path : List String
  ttl : Int
  thread_id : String
  requires_ack : Bool
  ack_received : Bool
  ack_nodes : List String
  received_via : List String
  signal_strength : List (String × Rat)
  battery_level : Option Rat
  media_attachments : List AttachmentDict
  gps_location : Option GPSDict
deriving DecidableEq, Repr

/-- `SOSPacket.to_dict`.  The enums are serialized through `.value`;
`gps_location` is included only when present. -/
def SOSPacket.to_dict (p : SOSPacket) : PacketDict :=
  { packet_id := p.packet_id
    sender_id := p.sender_id
    message := p.message
    packet_type := p.packet_type.value
    urgency := p.urgency.value
    location_text := p.location_text
    timestamp := p.timestamp
    hop_count := p.hop_count
    relay_path := p.relay_path
    ttl := p.ttl
    thread_id := p.thread_id
    requires_ack := p.requires_ack
    ack_received := p.ack_received
    ack_nodes := p.ack_nodes
    received_via := p.received_via
    signal_strength := p.signal_strength
    battery_level := p.battery_level
    media_attachments := p.media_attachments.map MediaAttachment.to_dict
    gps_location := p.gps_location.map GPSLocation.to_dict }

/-- `SOSPacket.from_dict`: re-runs the constructor on the wire fields
(raising — here `none` — on an unknown enum value), then overwrites the
metadata fields from the dict.  `hashFn`, `now`, `freshThread` model the
environment calls made by the constructor (all of whose results are then
overwritten or unused); `genNames i` models the generated default
filename for the i-th media attachment and `md5` the MD5 digest. -/
def SOSPacket.from_dict (hashFn : String → String) (now : Int)
    (freshThread : String) (genNames : Nat → String)
    (md5 : List Nat → String) (d : PacketDict) : Option SOSPacket :=
  match PacketType.fromValue d.packet_type, UrgencyLevel.fromValue d.urgency with
  | some pt, some ug =>
      let gps := d.gps_location.map (GPSLocation.from_dict now)
      let loc : LocationArg := match gps with
        | some g => LocationArg.gps g
        | none => LocationArg.text d.location_text
      let base := mkSOSPacket hashFn now freshThread d.sender_id d.message loc
        ug pt (some d.thread_id)
      some { base with
        packet_id := d.packet_id
        timestamp := d.timestamp
        hop_count := d.hop_count
        relay_path := d.relay_path
        ttl := d.ttl
        requires_ack := d.requires_ack
        ack_received := d.ack_received
        ack_nodes := d.ack_nodes
        received_via := d.received_via
        signal_strength := d.signal_strength
        battery_level := d.battery_level
        media_attachments := (d.media_attachments.enum.map
          fun ai => MediaAttachment.from_dict ai.2 (genNames ai.1) md5) }
  | _, _ => none

/-- `PacketPriorityQueue` from `packet_manager.py`: a `heapq` of triples
`(-priority_score, insertion_index, packet)` plus the running index.
The heap is modelled by its multiset of entries kept as a list; `heappop`
is modelled as removal of the lexicographically least `(priority, index)`
entry, which is exactly what `heapq` returns (the packet component never
takes part in a comparison because the indices are distinct). -/
structure PacketPriorityQueue where
  queue : List (Int × Nat × SOSPacket)
  index : Nat
deriving Repr

/-- The empty priority queue (`PacketPriorityQueue.__init__`). -/
def emptyPQ : PacketPriorityQueue := { queue := [], index := 0 }

/-- `PacketPriorityQueue.put`. -/
def PacketPriorityQueue.put (q : PacketPriorityQueue) (p : SOSPacket) :
    PacketPriorityQueue :=
  { queue := q.queue ++ [(-p.get_priority_score, q.index, p)],
    index := q.index + 1 }

/-- Lexicographic comparison on `(priority, index)` used by the heap. -/
def entryLe (a b : Int × Nat × SOSPacket) : Bool :=
  a.1 < b.1 || (a.1 = b.1 && a.2.1 ≤ b.2.1)

/-- Extract the least entry under `entryLe` (leftmost on ties, which
cannot arise for queues built by `put`) together with the rest. -/
def popMinEntry : List (Int × Nat × SOSPacket) →
    Option ((Int × Nat × SOSPacket) × List (Int × Nat × SOSPacket))
  | [] => none
  | e :: es =>
      match popMinEntry es with
      | none => some (e, [])
      | some (m, rest) =>
          if entryLe e m then some (e, es) else some (m, e :: rest)

/-- `PacketPriorityQueue.get`. -/
def PacketPriorityQueue.get (q : PacketPriorityQueue) :
    Option SOSPacket × PacketPriorityQueue :=
  match popMinEntry q.queue with
  | some (e, rest) => (some e.2.2, { q with queue := rest })
  | none => (none, q)

/-- `NetworkTopology` from `packet_manager.py` (the parts `add_packet`
touches; reliability is tracked but never read by the verified claims). -/
structure NetworkTopology where
  neighbors : List (String × List String)
  node_last_seen : List (String × Int)
  node_reliability : List (String × Rat)
  transport_availability : List (String × List String)
deriving Repr

/-- The empty topology. -/
def emptyTopology : NetworkTopology :=
  { neighbors := [], node_last_seen := [], node_reliability := [],
    transport_availability := [] }

/-- `NetworkTopology.add_neighbor` (`now` models `time.time()`).  The
per-node transport collections are Python sets: membership-insert. -/
def NetworkTopology.add_neighbor (t : NetworkTopology) (node_id transport : String)
    (now : Int) : NetworkTopology :=
  let ns := ((t.neighbors.lookup node_id).getD [])
  let ns := if transport ∈ ns then ns else ns ++ [transport]
  let av := ((t.transport_availability.lookup transport).getD [])
  let av := if node_id ∈ av then av else av ++ [node_id]
  { t with
    neighbors := dictSet node_id ns t.neighbors
    node_last_seen := dictSet node_id now t.node_last_seen
    transport_availability := dictSet transport av t.transport_availability }

/-- `NetworkTopology.get_active_neighbors`: nodes seen within `max_age`. -/
def NetworkTopology.get_active_neighbors (t : NetworkTopology) (now : Int)
    (max_age : Int := 300) : List String :=
  (t.node_last_seen.filter fun kv => now - kv.2 ≤ max_age).map (·.1)

/-- The `stats` counter dict of `PacketManager`. -/
structure Stats where
  packets_received : Nat
  packets_sent : Nat
  packets_relayed : Nat
  duplicates_filtered : Nat
  rate_limited : Nat
  acks_sent : Nat
  acks_received : Nat
deriving DecidableEq, Repr

/-- All counters start at zero. -/
def initStats : Stats :=
  { packets_received := 0, packets_sent := 0, packets_relayed := 0,
    duplicates_filtered := 0, rate_limited := 0, acks_sent := 0,
    acks_received := 0 }

/-- `PACKET_CACHE_LIMIT` from `config.py`. -/
def PACKET_CACHE_LIMIT : Nat := 100

/-- `PACKET_EXPIRATION` from `config.py` (seconds). -/
def PACKET_EXPIRATION : Int := 3600

/-- The mutable state of `PacketManager`.  `packet_cache`,
`thread_packets`, `pending_acks` and the rate-limiting tables are Python
dicts (insertion-ordered association lists); `seen_packet_ids` is a set,
of which only membership is ever observed. -/
structure PacketManager where
  packet_cache : List (String × SOSPacket)
  seen_packet_ids : List String
  thread_packets : List (String × List String)
  pending_acks : List (String × SOSPacket)
  priority_queue : PacketPriorityQueue
  topology : NetworkTopology
  node_packet_count : List (String × Nat)
  node_last_packet : List (String × Int)
  rate_limit_violations : List (String × Nat)
  stats : Stats
deriving Repr

/-- `PacketManager.__init__` (the outbound queue is never used by the
verified claims and is omitted). -/
def initManager : PacketManager :=
  { packet_cache := [], seen_packet_ids := [], thread_packets := [],
    pending_acks := [], priority_queue := emptyPQ, topology := emptyTopology,
    node_packet_count := [], node_last_packet := [],
    rate_limit_violations := [], stats := initStats }

/-- `PacketManager._check_rate_limit` with the default
`max_packets_per_minute = 10`; `now` models `time.time()`.  The counter
is reset when more than 60 s passed since this node's previous packet,
then incremented and the last-packet time updated — on every call,
including those that end up rate-limited. -/
def PacketManager.check_rate_limit (m : PacketManager) (node_id : String)
    (now : Int) : Bool × PacketManager :=
  let count0 := match m.node_last_packet.lookup node_id with
    | some last =>
        if now - last > 60 then 0 else (m.node_packet_count.lookup node_id).getD 0
    | none => (m.node_packet_count.lookup node_id).getD 0
  let count := count0 + 1
  let npc := dictSet node_id count m.node_packet_count
  let nlp := dictSet node_id now m.node_last_packet
  let m := { m with node_packet_count := npc, node_last_packet := nlp }
  if count > 10 then
    let v := (m.rate_limit_violations.lookup node_id).getD 0 + 1
    (false, { m with rate_limit_violations := dictSet node_id v m.rate_limit_violations })
  else
    (true, m)

/-- `PacketManager._handle_ack_packet`: extract the original id from the
ACK message (Python substring test and `str.replace` of every occurrence
of `"ACK for "`, modelled through `splitOn`), and if it is pending,
record the acknowledgment.  The source mutates the packet object, which
is aliased by `pending_acks` and `packet_cache`; the model updates both
tables. -/
def PacketManager.handle_ack_packet (m : PacketManager) (ack : SOSPacket) :
    PacketManager :=
  let parts := ack.message.splitOn "ACK for "
  if parts.length > 1 then
    let original_id := String.intercalate "" parts
    match m.pending_acks.lookup original_id with
    | some original =>
        let updated := original.add_acknowledgment ack.sender_id
        { m with
          pending_acks := dictSet original_id updated m.pending_acks
          packet_cache :=
            if (m.packet_cache.lookup original_id).isSome then
              dictSet original_id updated m.packet_cache
            else m.packet_cache
          stats := { m.stats with acks_received := m.stats.acks_received + 1 } }
    | none => m
  else m

/-- `PacketManager.remove_packet`: drop the packet from the cache, from
its thread's id list (`list.remove`, first occurrence), and from
`pending_acks`.  `seen_packet_ids` is untouched. -/
def PacketManager.remove_packet (m : PacketManager) (packet_id : String) :
    PacketManager :=
  match m.packet_cache.lookup packet_id with
  | none => m
  | some packet =>
      let m := { m with packet_cache := dictErase packet_id m.packet_cache }
      let m := match m.thread_packets.lookup packet.thread_id with
        | some lst =>
            if packet_id ∈ lst then
              { m with thread_packets :=
                dictSet packet.thread_id (lst.erase packet_id) m.thread_packets }
            else m
        | none => m
      if (m.pending_acks.lookup packet_id).isSome then
        { m with pending_acks := dictErase packet_id m.pending_acks }
      else m

/-- The `min(cache.keys(), key=priority_score)` of `_prune_cache`:
the first key (in dict insertion order) attaining the minimal score,
exactly as Python's `min` resolves ties. -/
def minScoreId : List (String × SOSPacket) → Option (String × Int)
  | [] => none
  | (k, p) :: rest =>
      match minScoreId rest with
      | none => some (k, p.get_priority_score)
      | some (k', s') =>
          if p.get_priority_score ≤ s' then some (k, p.get_priority_score)
          else some (k', s')

/-- The `while len(cache) > PACKET_CACHE_LIMIT` loop of `_prune_cache`,
written with explicit fuel (each iteration removes one cached packet, so
`cache.length` bounds the number of iterations). -/
def PacketManager.prune_loop : Nat → PacketManager → PacketManager
  | 0, m => m
  | fuel + 1, m =>
      if m.packet_cache.length > PACKET_CACHE_LIMIT then
        match minScoreId m.packet_cache with
        | some ks =>
            let m := m.remove_packet ks.1
            let m := { m with seen_packet_ids := m.seen_packet_ids.erase ks.1 }
            PacketManager.prune_loop fuel m
        | none => m
      else m

/-- `PacketManager._prune_cache`: first evict every expired packet, then
evict minimum-priority packets while over the limit.  Both paths also
discard the evicted id from `seen_packet_ids`. -/
def PacketManager.prune_cache (m : PacketManager) (now : Int) : PacketManager :=
  let expired_ids :=
    (m.packet_cache.filter fun kv => now - kv.2.timestamp > PACKET_EXPIRATION).map (·.1)
  let m := expired_ids.foldl
    (fun acc pid =>
      let acc := acc.remove_packet pid
      { acc with seen_packet_ids := acc.seen_packet_ids.erase pid })
    m
  PacketManager.prune_loop m.packet_cache.length m

/-- `PacketManager.add_packet`.  `now` models the `time.time()` calls made
during the admission (rate check, topology update, pruning).  Returns the
Python boolean (admitted or dropped) with the post state.  Order of
checks, exactly as in the source: duplicate, rate limit, TTL; then
annotation, insertion, statistics, ACK handling, priority queue, prune. -/
def PacketManager.add_packet (m : PacketManager) (packet : SOSPacket)
    (from_transport : Option String) (sig : Option Rat) (now : Int) :
    Bool × PacketManager :=
  if packet.packet_id ∈ m.seen_packet_ids then
    (false, { m with stats :=
      { m.stats with duplicates_filtered := m.stats.duplicates_filtered + 1 } })
  else
    match m.check_rate_limit packet.sender_id now with
    | (false, m1) =>
        (false, { m1 with stats :=
          { m1.stats with rate_limited := m1.stats.rate_limited + 1 } })
    | (true, m1) =>
        if !packet.can_relay then
          (false, m1)
        else
          let (packet, m2) := match from_transport with
            | some t =>
                if t = "" then (packet, m1)
                else
                  ({ packet with received_via := packet.received_via ++ [t] },
                   { m1 with topology := m1.topology.add_neighbor packet.sender_id t now })
            | none => (packet, m1)
          let packet := match sig with
            | some s =>
                { packet with signal_strength := dictSet packet.sender_id s packet.signal_strength }
            | none => packet
          let newSeen :=
            if packet.packet_id ∈ m2.seen_packet_ids then m2.seen_packet_ids
            else m2.seen_packet_ids ++ [packet.packet_id]
          let newThreads :=
            dictSet packet.thread_id
              (((m2.thread_packets.lookup packet.thread_id).getD []) ++
                [packet.packet_id])
              m2.thread_packets
          let m3 := { m2 with
            packet_cache := dictSet packet.packet_id packet m2.packet_cache,
            seen_packet_ids := newSeen,
            thread_packets := newThreads,
            stats := { m2.stats with packets_received := m2.stats.packets_received + 1 } }
          let m4 :=
            if packet.packet_type = PacketType.ACK then
              m3.handle_ack_packet packet
            else if packet.requires_ack then
              { m3 with pending_acks := dictSet packet.packet_id packet m3.pending_acks }
            else m3
          let m5 := { m4 with priority_queue := m4.priority_queue.put packet }
          let m6 :=
            if m5.packet_cache.length > PACKET_CACHE_LIMIT then
              m5.prune_cache now
            else m5
          (true, m6)

/-- `PacketManager.should_relay_packet` (`now` models the `time.time()`
inside `get_active_neighbors`). -/
def PacketManager.should_relay_packet (m : PacketManager) (packet : SOSPacket)
    (node_id : String) (now : Int) : Bool :=
  if packet.sender_id = node_id then false
  else if node_id ∈ packet.relay_path then false
  else if !packet.can_relay then false
  else if packet.urgency = UrgencyLevel.CRITICAL then true
  else if (m.topology.get_active_neighbors now).length < 3 then true
  else if packet.hop_count > 5 && packet.urgency = UrgencyLevel.LOW then false
  else true

/-- `PacketManager.get_next_packet_to_process`: pop the priority queue. -/
def PacketManager.get_next_packet_to_process (m : PacketManager) :
    Option SOSPacket × PacketManager :=
  match m.priority_queue.get with
  | (r, q) => (r, { m with priority_queue := q })

/-- The response handling of `ServerUploader._upload_packet`: on an
HTTP 200 the packet is removed from the manager; on any other status the
state is untouched (the packet stays cached and is retried next cycle). -/
def uploadPacketResult (m : PacketManager) (packet : SOSPacket)
    (status : Nat) : PacketManager :=
  if status = 200 then m.remove_packet packet.packet_id else m

/-- The BLE receiver's per-transfer chunk buffer
(`BLEReceiver.received_data_buffer`): a dict from client id to a dict
from chunk number to chunk data. -/
abbrev BLEBuffer : Type := List (String × List (Nat × String))

/-- Handling of a `CHUNK:<client_id>:<chunk_num>:<data>` notification in
`BLEReceiver._on_notification_received`: create the client's buffer entry
if absent, then store the chunk under its number (overwriting any chunk
previously stored under the same number). -/
def bleStoreChunk (buffer : BLEBuffer) (client_id : String) (chunk_num : Nat)
    (chunk_data : String) : BLEBuffer :=
  let chunks := (buffer.lookup client_id).getD []
  dictSet client_id (natDictSet chunk_num chunk_data chunks) buffer

/-- The reconstruction loop on `END`: concatenate `chunks[0..total-1]`
in index order, failing (and leaving everything as it was) if any index
is missing. -/
def reconstructChunks (chunks : List (Nat × String)) (total : Nat) :
    Option String :=
  (List.range total).foldl
    (fun acc i =>
      match acc, chunks.lookup i with
      | some s, some c => some (s ++ c)
      | _, _ => none)
    (some "")

/-- Handling of an `END:<client_id>:<total_chunks>` notification: if the
client has a buffer whose number of (distinct) chunk indices equals
`total_chunks` and indices `0..total-1` are all present, the buffer entry
is deleted and the concatenation is returned for packet decoding.  In
every failure case (`no chunks found`, `incomplete chunks`, `missing
chunk`) the handler returns with the buffer left untouched. -/
def bleHandleEnd (buffer : BLEBuffer) (client_id : String)
    (total_chunks : Nat) : Option String × BLEBuffer :=
  match buffer.lookup client_id with
  | none => (none, buffer)
  | some chunks =>
      if chunks.length = total_chunks then
        match reconstructChunks chunks total_chunks with
        | some s => (some s, dictErase client_id buffer)
        | none => (none, buffer)
      else (none, buffer)

/-- The success condition for `bleHandleEnd`, as a decidable check: the
transfer has a buffer entry holding exactly `total_chunks` chunks whose
indices are `0..total_chunks-1`. -/
def bleReassemblyOk (buffer : BLEBuffer) (client_id : String)
    (total_chunks : Nat) : Bool :=
  match buffer.lookup client_id with
  | none => false
  | some chunks =>
      chunks.length = total_chunks &&
        (List.range total_chunks).all fun i => (chunks.lookup i).isSome

/-- The post-decode delivery step of `UDPReceiver._receive_loop`
(lines 143-151): a successfully decoded packet is dropped when its
sender is this node, otherwise appended to the shared inbound queue. -/
def udpReceiveStep (node_id : String) (queue : List SOSPacket)
    (packet : SOSPacket) : List SOSPacket :=
  if packet.sender_id = node_id then queue else queue ++ [packet]

/-- The post-decode delivery step of the GGWave receiver
(`ggwave_transport.py`, lines 262-271): identical self-drop then
enqueue. -/
def ggwaveReceiveStep (node_id : String) (queue : List SOSPacket)
    (packet : SOSPacket) : List SOSPacket :=
  if packet.sender_id = node_id then queue else queue ++ [packet]

/-- The post-decode delivery step of
`BLEReceiver._on_notification_received` (lines 432-441): the parsed
packet is enqueued unconditionally — the BLE path performs no
`sender_id` check. -/
def bleReceiveStep (_node_id : String) (queue : List SOSPacket)
    (packet : SOSPacket) : List SOSPacket :=
  queue ++ [packet]

/-- The self-skip at the head of the coordinator's message-processing
loop (`client.py` `_process_messages`): a packet taken off the inbound
queue is processed only when its sender is not this node. -/
def clientProcessesPacket (node_id : String) (packet : SOSPacket) : Bool :=
  packet.sender_id ≠ node_id

/-- Fold a list of `add_packet` calls (packet, transport, signal, time)
over a manager state, collecting the returned booleans. -/
def runAddCalls (m : PacketManager) :
    List (SOSPacket × Option String × Option Rat × Int) →
    List Bool × PacketManager
  | [] => ([], m)
  | (p, tr, sg, now) :: rest =>
      let (b, m1) := m.add_packet p tr sg now
      let (bs, mf) := runAddCalls m1 rest
      (b :: bs, mf)

/-- Repeatedly offer the same packet to `add_packet` (one entry per call:
transport, signal, time), collecting the returned booleans. -/
def runAddSame (m : PacketManager) (p : SOSPacket) :
    List (Option String × Option Rat × Int) → List Bool × PacketManager
  | [] => ([], m)
  | (tr, sg, now) :: rest =>
      let (b, m1) := m.add_packet p tr sg now
      let (bs, mf) := runAddSame m1 p rest
      (b :: bs, mf)

/-- The relay-eligibility formula asserted by the specification (claim
C2): `ttl > 0 AND hop_count < initial_ttl(urgency)`, with the initial
urgency-determined hop budget as the bound on `hop_count`. -/
def canRelaySpecFormula (p : SOSPacket) : Bool :=
  0 < p.ttl && (p.hop_count : Int) < calculate_ttl p.urgency

/-- A LOW-urgency packet (initial TTL 5) after three relay hops:
`hop_count = 3`, `ttl = 2`. -/
def pC2 : SOSPacket :=
  let p := mkSOSPacket (fun s => s) 0 "th-c2" "nodeA" "low traffic"
    LocationArg.noLoc UrgencyLevel.LOW PacketType.STATUS_UPDATE none
  (((p.increment_hop "n1" none none).increment_hop "n2" none none).increment_hop
    "n3" none none)

example : pC2.hop_count = 3 ∧ pC2.ttl = 2 := by decide

/-- C2 counterexample: for the reachable packet `pC2` (LOW urgency,
three hops), `can_relay()` disagrees with the specification's formula
`ttl > 0 AND hop_count < initial_ttl(urgency)`: the code compares
`hop_count` with the current `ttl` field, not with the initial TTL. -/
theorem c2_counterexample : pC2.can_relay ≠ canRelaySpecFormula pC2 := by decide

/-- Relay invariant maintained by construction and relaying: the hops
taken plus the remaining budget equal the initial urgency TTL. -/
def RelayInvariant (p : SOSPacket) : Prop :=
  (p.hop_count : Int) + p.ttl = calculate_ttl p.urgency

/-- C2 (amended): `can_relay()` is `ttl > 0 AND hop_count < ttl`, with
the bound being the packet's current `ttl` field, which starts at the
urgency TTL (CRITICAL=20, HIGH=15, MEDIUM=10, LOW=5) and is decremented
on each hop while `hop_count` is incremented.  Under the resulting
invariant `hop_count + ttl = initial_ttl(urgency)`, a packet is relay
eligible exactly while `2 * hop_count < initial_ttl(urgency)` — so
eligibility ends strictly earlier than the claimed
`hop_count < initial_ttl(urgency)`; a packet with `ttl = 0` or
`hop_count ≥ initial_ttl(urgency)` is indeed ineligible. -/
theorem c2_can_relay_ttl_budget :
    (∀ p : SOSPacket,
      p.can_relay = (decide (0 < p.ttl) && decide ((p.hop_count : Int) < p.ttl)))
    ∧ (∀ hashFn now fresh sender msg loc ug pt tid,
      RelayInvariant (mkSOSPacket hashFn now fresh sender msg loc ug pt tid))
    ∧ (∀ (p : SOSPacket) nid tr sg,
      RelayInvariant p → RelayInvariant (p.increment_hop nid tr sg))
    ∧ (∀ p : SOSPacket, RelayInvariant p →
      (p.can_relay = true ↔ 2 * (p.hop_count : Int) < calculate_ttl p.urgency))
    ∧ (∀ p : SOSPacket, RelayInvariant p →
      (p.ttl = 0 ∨ (p.hop_count : Int) ≥ calculate_ttl p.urgency) →
      p.can_relay = false) := by
  refine ⟨?_, ?_, ?_, ?_, ?_⟩
  · intro p
    rfl
  · intro hashFn now fresh sender msg loc ug pt tid
    simp [RelayInvariant, mkSOSPacket]
  · intro p nid tr sg h
    unfold RelayInvariant at h ⊢
    cases tr <;> cases sg <;>
      simp only [SOSPacket.increment_hop] <;>
      split_ifs <;>
      simp_all
  · intro p h
    unfold RelayInvariant at h
    simp only [SOSPacket.can_relay, Bool.and_eq_true, decide_eq_true_eq]
    omega
  · intro p h hend
    unfold RelayInvariant at h
    simp only [SOSPacket.can_relay, Bool.and_eq_false_iff]
    simp only [decide_eq_false_iff_not, not_lt]
    omega

/-- A fresh MEDIUM-urgency packet used as the C2 witness input. -/
def pC2w : SOSPacket :=
  mkSOSPacket (fun s => s) 7 "th-c2w" "nodeB" "medium traffic"
    LocationArg.noLoc UrgencyLevel.MEDIUM PacketType.STATUS_UPDATE none

/-- C2 witness: the invariant-based characterization applied to the
concrete packet `pC2w`. -/
theorem c2_can_relay_ttl_budget_witness :
    RelayInvariant pC2w ∧
    (pC2w.can_relay = true ↔ 2 * (pC2w.hop_count : Int) < calculate_ttl pC2w.urgency) :=
  ⟨by unfold RelayInvariant; decide,
   c2_can_relay_ttl_budget.2.2.2.1 pC2w (by unfold RelayInvariant; decide)⟩

/-- Frame lemma: `_check_rate_limit` touches only the rate-limiting
tables; cache, seen set, thread index, pending ACKs and the duplicate
counter are untouched, whether or not the limit is exceeded. -/
theorem check_rate_limit_frame (m : PacketManager) (node : String) (now : Int) :
    (m.check_rate_limit node now).2.packet_cache = m.packet_cache ∧
    (m.check_rate_limit node now).2.seen_packet_ids = m.seen_packet_ids ∧
    (m.check_rate_limit node now).2.thread_packets = m.thread_packets ∧
    (m.check_rate_limit node now).2.pending_acks = m.pending_acks ∧
    (m.check_rate_limit node now).2.stats = m.stats := by
  simp only [PacketManager.check_rate_limit]
  split_ifs <;> simp

/-- A LOW-urgency STATUS_UPDATE packet after five hops: `ttl = 0`,
`hop_count = 5`, so `can_relay()` is false; its type is not ACK. -/
def pC3 : SOSPacket :=
  let p := mkSOSPacket (fun s => s) 0 "th-c3" "nodeC" "exhausted"
    LocationArg.noLoc UrgencyLevel.LOW PacketType.STATUS_UPDATE none
  ((((p.increment_hop "m1" none none).increment_hop "m2" none none).increment_hop
    "m3" none none).increment_hop "m4" none none).increment_hop "m5" none none

/-- C3 counterexample: `pC3` is a non-ACK packet that passes the
duplicate and rate-limit checks of a fresh manager but cannot relay;
`add_packet` drops it (returns False) and admits nothing to the cache,
contradicting the claimed admit-for-local-handling. -/
theorem c3_counterexample :
    pC3.packet_type ≠ PacketType.ACK ∧
    pC3.can_relay = false ∧
    (initManager.add_packet pC3 none none 0).1 = false ∧
    (initManager.add_packet pC3 none none 0).2.packet_cache = [] := by
  decide

/-- C3 (amended): a packet that fails `can_relay()` — of any type,
ACK or not — and passes the duplicate and rate-limit checks is dropped
by `add_packet` (returns False) with the cache and seen set unchanged:
admission performs the TTL check itself; `should_relay_packet`
additionally re-checks it. -/
theorem c3_ttl_drop_no_admission :
    ∀ (m : PacketManager) (p : SOSPacket) (tr : Option String) (sg : Option Rat)
      (now : Int),
      p.packet_id ∉ m.seen_packet_ids →
      (m.check_rate_limit p.sender_id now).1 = true →
      p.can_relay = false →
      (m.add_packet p tr sg now).1 = false ∧
      (m.add_packet p tr sg now).2.packet_cache = m.packet_cache ∧
      (m.add_packet p tr sg now).2.seen_packet_ids = m.seen_packet_ids ∧
      (∀ node_id, m.should_relay_packet p node_id now = false) := by
  intro m p tr sg now h1 h2 h3
  have hfr := check_rate_limit_frame m p.sender_id now
  unfold PacketManager.add_packet
  rw [if_neg h1]
  rcases hE : m.check_rate_limit p.sender_id now with ⟨b, m1⟩
  rw [hE] at h2 hfr
  simp only at h2
  subst h2
  dsimp only at hfr
  refine ⟨by simp [h3], by simp [h3, hfr.1], by simp [h3, hfr.2.1], ?_⟩
  intro nid
  simp [PacketManager.should_relay_packet, h3]

/-- C3 witness: the amended theorem applied to the fresh manager and the
concrete exhausted packet `pC3`. -/
theorem c3_ttl_drop_no_admission_witness :
    (initManager.add_packet pC3 none none 0).1 = false ∧
    (initManager.add_packet pC3 none none 0).2.packet_cache = initManager.packet_cache ∧
    (initManager.add_packet pC3 none none 0).2.seen_packet_ids = initManager.seen_packet_ids ∧
    (∀ node_id, initManager.should_relay_packet pC3 node_id 0 = false) :=
  c3_ttl_drop_no_admission initManager pC3 none none 0
    (by decide) (by decide) (by decide)

/-- A duplicate offer: when the packet id is already in
`seen_packet_ids`, `add_packet` returns False having only incremented
`duplicates_filtered`. -/
theorem add_packet_dup_eq (m : PacketManager) (p : SOSPacket)
    (tr : Option String) (sg : Option Rat) (now : Int)
    (h : p.packet_id ∈ m.seen_packet_ids) :
    m.add_packet p tr sg now =
      (false, { m with stats :=
        { m.stats with duplicates_filtered := m.stats.duplicates_filtered + 1 } }) := by
  unfold PacketManager.add_packet
  rw [if_pos h]

/-- Once the packet id is in the seen set, every further offer of that
packet is dropped as a duplicate, each bumping `duplicates_filtered`. -/
theorem runAddSame_dup (p : SOSPacket)
    (args : List (Option String × Option Rat × Int)) :
    ∀ m : PacketManager, p.packet_id ∈ m.seen_packet_ids →
      (runAddSame m p args).1 = args.map (fun _ => false) ∧
      (runAddSame m p args).2.stats.duplicates_filtered =
        m.stats.duplicates_filtered + args.length := by
  induction args with
  | nil => intro m h; simp [runAddSame]
  | cons a rest ih =>
      intro m h
      obtain ⟨tr, sg, now⟩ := a
      simp only [runAddSame]
      rw [add_packet_dup_eq m p tr sg now h]
      have hx := ih { m with stats :=
        { m.stats with duplicates_filtered := m.stats.duplicates_filtered + 1 } } h
      simp only [hx.1, hx.2]
      constructor
      · rfl
      · simp only [List.length_cons]
        omega

/-- A non-relayable, unseen packet is dropped (by the rate limiter or
the TTL check) with the seen set, the cache and the duplicate counter
unchanged. -/
theorem add_packet_drop_noRelay (m : PacketManager) (p : SOSPacket)
    (tr : Option String) (sg : Option Rat) (now : Int)
    (h1 : p.packet_id ∉ m.seen_packet_ids) (h3 : p.can_relay = false) :
    (m.add_packet p tr sg now).1 = false ∧
    (m.add_packet p tr sg now).2.seen_packet_ids = m.seen_packet_ids ∧
    (m.add_packet p tr sg now).2.stats.duplicates_filtered =
      m.stats.duplicates_filtered := by
  have hfr := check_rate_limit_frame m p.sender_id now
  unfold PacketManager.add_packet
  rw [if_neg h1]
  rcases hE : m.check_rate_limit p.sender_id now with ⟨b, m1⟩
  rw [hE] at hfr
  dsimp only at hfr
  cases b
  · exact ⟨rfl, by simp [hfr.2.1], by simp [hfr.2.2.2.2]⟩
  · exact ⟨by simp [h3], by simp [h3, hfr.2.1], by simp [h3, hfr.2.2.2.2]⟩

/-- A sequence of offers of one non-relayable packet: every call returns
False and neither the seen set nor the duplicate counter moves. -/
theorem runAddSame_noRelay (p : SOSPacket) (h3 : p.can_relay = false)
    (args : List (Option String × Option Rat × Int)) :
    ∀ m : PacketManager, p.packet_id ∉ m.seen_packet_ids →
      (runAddSame m p args).1 = args.map (fun _ => false) ∧
      (runAddSame m p args).2.stats.duplicates_filtered =
        m.stats.duplicates_filtered := by
  induction args with
  | nil => intro m _; simp [runAddSame]
  | cons a rest ih =>
      intro m h1
      obtain ⟨tr, sg, now⟩ := a
      simp only [runAddSame]
      rcases hE : m.add_packet p tr sg now with ⟨b, m1⟩
      have hd := add_packet_drop_noRelay m p tr sg now h1 h3
      rw [hE] at hd
      dsimp only at hd
      obtain ⟨hb, hseen, hdup⟩ := hd
      subst hb
      have hx := ih m1 (hseen ▸ h1)
      simp [hx.1, hx.2, hdup]

/-- Inserting into an association list grows it by at most one entry. -/
theorem dictSet_length_le {α : Type} (k : String) (v : α) (l : List (String × α)) :
    (dictSet k v l).length ≤ l.length + 1 := by
  induction l with
  | nil => simp [dictSet]
  | cons a rest ih =>
      obtain ⟨k', v'⟩ := a
      simp only [dictSet]
      split_ifs <;> simp only [List.length_cons] <;> omega

/-- Updating an existing key keeps the association-list length. -/
theorem dictSet_length_of_isSome {α : Type} (k : String) (v : α)
    (l : List (String × α)) (h : (List.lookup k l).isSome = true) :
    (dictSet k v l).length = l.length := by
  induction l with
  | nil => simp [List.lookup] at h
  | cons a rest ih =>
      obtain ⟨k', v'⟩ := a
      simp only [dictSet]
      by_cases hk : k' = k
      · simp [hk]
      · rw [if_neg hk]
        simp only [List.length_cons]
        have hbe : (k == k') = false := by
          simp only [beq_eq_false_iff_ne, ne_eq]
          exact fun hh => hk hh.symm
        simp only [List.lookup, hbe] at h
        rw [ih h]

/-- Frame lemma: ACK reconciliation touches neither the seen set nor
the duplicate counter, and does not change the cache's size (it updates
a cached value in place when the acknowledged packet is cached). -/
theorem handle_ack_frame (m : PacketManager) (p : SOSPacket) :
    (m.handle_ack_packet p).seen_packet_ids = m.seen_packet_ids ∧
    (m.handle_ack_packet p).stats.duplicates_filtered = m.stats.duplicates_filtered ∧
    (m.handle_ack_packet p).packet_cache.length = m.packet_cache.length := by
  unfold PacketManager.handle_ack_packet
  dsimp only
  by_cases hgt : (p.message.splitOn "ACK for ").length > 1
  · rw [if_pos hgt]
    rcases hL : List.lookup (String.intercalate "" (p.message.splitOn "ACK for "))
        m.pending_acks with _ | orig
    · exact ⟨rfl, rfl, rfl⟩
    · refine ⟨rfl, rfl, ?_⟩
      dsimp only
      by_cases hc : (List.lookup (String.intercalate ""
          (p.message.splitOn "ACK for ")) m.packet_cache).isSome = true
      · rw [if_pos hc]
        exact dictSet_length_of_isSome _ _ _ hc
      · rw [if_neg hc]
  · rw [if_neg hgt]
    exact ⟨rfl, rfl, rfl⟩

/-- Inserting one packet into a cache that has room for it cannot push
the cache over `PACKET_CACHE_LIMIT`. -/
theorem not_over_limit {α : Type} (k : String) (v : α) (l : List (String × α))
    (h : l.length + 1 ≤ PACKET_CACHE_LIMIT) :
    ¬ (dictSet k v l).length > PACKET_CACHE_LIMIT := by
  have := dictSet_length_le k v l
  omega

/-- ACK reconciliation preserves the seen set. -/
theorem handle_ack_seen (m : PacketManager) (p : SOSPacket) :
    (m.handle_ack_packet p).seen_packet_ids = m.seen_packet_ids :=
  (handle_ack_frame m p).1

/-- ACK reconciliation preserves the duplicate counter. -/
theorem handle_ack_dup (m : PacketManager) (p : SOSPacket) :
    (m.handle_ack_packet p).stats.duplicates_filtered =
      m.stats.duplicates_filtered :=
  (handle_ack_frame m p).2.1

/-- ACK reconciliation preserves the cache size. -/
theorem handle_ack_cache_len (m : PacketManager) (p : SOSPacket) :
    (m.handle_ack_packet p).packet_cache.length = m.packet_cache.length :=
  (handle_ack_frame m p).2.2

/-- Admission of an unseen, relayable packet into a manager whose cache
has room: `add_packet` returns True, appends the id to the seen set, and
leaves the duplicate counter unchanged. -/
theorem add_packet_admit (m : PacketManager) (p : SOSPacket)
    (tr : Option String) (sg : Option Rat) (now : Int)
    (h1 : p.packet_id ∉ m.seen_packet_ids)
    (h2 : (m.check_rate_limit p.sender_id now).1 = true)
    (h3 : p.can_relay = true)
    (h4 : m.packet_cache.length + 1 ≤ PACKET_CACHE_LIMIT) :
    (m.add_packet p tr sg now).1 = true ∧
    (m.add_packet p tr sg now).2.seen_packet_ids =
      m.seen_packet_ids ++ [p.packet_id] ∧
    (m.add_packet p tr sg now).2.stats.duplicates_filtered =
      m.stats.duplicates_filtered := by
  have hfr := check_rate_limit_frame m p.sender_id now
  rcases hE : m.check_rate_limit p.sender_id now with ⟨b, m1⟩
  rw [hE] at h2 hfr
  simp only at h2
  subst h2
  dsimp only at hfr
  obtain ⟨hc1, hs1, ht1, hp1, hst1⟩ := hfr
  unfold PacketManager.add_packet
  rw [if_neg h1, hE]
  dsimp only
  rw [if_neg (by simp [h3] : ¬ ((!p.can_relay) = true))]
  rcases tr with _ | t
  · rcases sg with _ | s
    · dsimp only
      rw [hs1, hst1, hc1, if_neg h1]
      by_cases hA : p.packet_type = PacketType.ACK
      · rw [if_pos hA]
        try dsimp only
        rw [handle_ack_cache_len, if_neg (not_over_limit _ _ _ h4)]
        exact ⟨rfl, by rw [handle_ack_seen], by rw [handle_ack_dup]⟩
      · rw [if_neg hA]
        by_cases hR : p.requires_ack = true
        · rw [if_pos hR]
          dsimp only
          rw [if_neg (not_over_limit _ _ _ h4)]
          exact ⟨rfl, rfl, rfl⟩
        · rw [if_neg hR]
          dsimp only
          rw [if_neg (not_over_limit _ _ _ h4)]
          exact ⟨rfl, rfl, rfl⟩
    · dsimp only
      rw [hs1, hst1, hc1, if_neg h1]
      by_cases hA : p.packet_type = PacketType.ACK
      · rw [if_pos hA]
        try dsimp only
        rw [handle_ack_cache_len, if_neg (not_over_limit _ _ _ h4)]
        exact ⟨rfl, by rw [handle_ack_seen], by rw [handle_ack_dup]⟩
      · rw [if_neg hA]
        by_cases hR : p.requires_ack = true
        · rw [if_pos hR]
          dsimp only
          rw [if_neg (not_over_limit _ _ _ h4)]
          exact ⟨rfl, rfl, rfl⟩
        · rw [if_neg hR]
          dsimp only
          rw [if_neg (not_over_limit _ _ _ h4)]
          exact ⟨rfl, rfl, rfl⟩
  · dsimp only
    by_cases ht : t = ""
    · rw [if_pos ht]
      dsimp only
      rcases sg with _ | s
      · dsimp only
        rw [hs1, hst1, hc1, if_neg h1]
        by_cases hA : p.packet_type = PacketType.ACK
        · rw [if_pos hA]
          try dsimp only
          rw [handle_ack_cache_len, if_neg (not_over_limit _ _ _ h4)]
          exact ⟨rfl, by rw [handle_ack_seen], by rw [handle_ack_dup]⟩
        · rw [if_neg hA]
          by_cases hR : p.requires_ack = true
          · rw [if_pos hR]
            dsimp only
            rw [if_neg (not_over_limit _ _ _ h4)]
            exact ⟨rfl, rfl, rfl⟩
          · rw [if_neg hR]
            dsimp only
            rw [if_neg (not_over_limit _ _ _ h4)]
            exact ⟨rfl, rfl, rfl⟩
      · dsimp only
        rw [hs1, hst1, hc1, if_neg h1]
        by_cases hA : p.packet_type = PacketType.ACK
        · rw [if_pos hA]
          try dsimp only
          rw [handle_ack_cache_len, if_neg (not_over_limit _ _ _ h4)]
          exact ⟨rfl, by rw [handle_ack_seen], by rw [handle_ack_dup]⟩
        · rw [if_neg hA]
          by_cases hR : p.requires_ack = true
          · rw [if_pos hR]
            dsimp only
            rw [if_neg (not_over_limit _ _ _ h4)]
            exact ⟨rfl, rfl, rfl⟩
          · rw [if_neg hR]
            dsimp only
            rw [if_neg (not_over_limit _ _ _ h4)]
            exact ⟨rfl, rfl, rfl⟩
    · rw [if_neg ht]
      dsimp only
      rcases sg with _ | s
      · dsimp only
        rw [hs1, hst1, hc1, if_neg h1]
        by_cases hA : p.packet_type = PacketType.ACK
        · rw [if_pos hA]
          try dsimp only
          rw [handle_ack_cache_len, if_neg (not_over_limit _ _ _ h4)]
          exact ⟨rfl, by rw [handle_ack_seen], by rw [handle_ack_dup]⟩
        · rw [if_neg hA]
          by_cases hR : p.requires_ack = true
          · rw [if_pos hR]
            dsimp only
            rw [if_neg (not_over_limit _ _ _ h4)]
            exact ⟨rfl, rfl, rfl⟩
          · rw [if_neg hR]
            dsimp only
            rw [if_neg (not_over_limit _ _ _ h4)]
            exact ⟨rfl, rfl, rfl⟩
      · dsimp only
        rw [hs1, hst1, hc1, if_neg h1]
        by_cases hA : p.packet_type = PacketType.ACK
        · rw [if_pos hA]
          try dsimp only
          rw [handle_ack_cache_len, if_neg (not_over_limit _ _ _ h4)]
          exact ⟨rfl, by rw [handle_ack_seen], by rw [handle_ack_dup]⟩
        · rw [if_neg hA]
          by_cases hR : p.requires_ack = true
          · rw [if_pos hR]
            dsimp only
            rw [if_neg (not_over_limit _ _ _ h4)]
            exact ⟨rfl, rfl, rfl⟩
          · rw [if_neg hR]
            dsimp only
            rw [if_neg (not_over_limit _ _ _ h4)]
            exact ⟨rfl, rfl, rfl⟩

/-- A LOW-urgency packet with its TTL exhausted (five hops), used to
refute the universally quantified form of claim C1. -/
def pC1 : SOSPacket :=
  let p := mkSOSPacket (fun s => s) 0 "th-c1" "nodeD" "never admitted"
    LocationArg.noLoc UrgencyLevel.LOW PacketType.STATUS_UPDATE none
  ((((p.increment_hop "r1" none none).increment_hop "r2" none none).increment_hop
    "r3" none none).increment_hop "r4" none none).increment_hop "r5" none none

/-- C1 counterexample: for the packet `pC1` (TTL exhausted), a sequence
consisting of a single `add_packet` call has no call returning Admitted —
the call is dropped by the TTL check, not as a duplicate — so it is not
the case that exactly one call in every sequence returns Admitted. -/
theorem c1_counterexample :
    ¬ ((runAddSame initManager pC1 [(none, none, 0)]).1.count true = 1) := by
  decide

/-- C1 (amended): starting from a fresh manager, a sequence of
`add_packet` calls offering the same packet `p` admits `p` at most once:
if `p.can_relay()` holds, exactly the first call returns Admitted and
every later call returns Dropped as a duplicate, with
`duplicates_filtered` ending at the number of calls after the first;
if `p.can_relay()` fails, every call returns Dropped (by the TTL check
or the rate limiter) and no duplicate is counted. -/
theorem c1_admission_idempotent :
    ∀ (p : SOSPacket) (args : List (Option String × Option Rat × Int)),
      (runAddSame initManager p args).1 =
        (if p.can_relay then
           match args with
           | [] => []
           | _ :: rest => true :: rest.map (fun _ => false)
         else args.map (fun _ => false)) ∧
      (runAddSame initManager p args).2.stats.duplicates_filtered =
        (if p.can_relay then args.length - 1 else 0) := by
  intro p args
  by_cases h : p.can_relay = true
  · rw [if_pos h, if_pos h]
    cases args with
    | nil => simp [runAddSame, initManager, initStats]
    | cons a rest =>
        obtain ⟨tr, sg, now⟩ := a
        simp only [runAddSame]
        have hadm := add_packet_admit initManager p tr sg now
          (by simp [initManager]) (by rfl) h (by decide)
        rcases hE : initManager.add_packet p tr sg now with ⟨b, m1⟩
        rw [hE] at hadm
        dsimp only at hadm
        obtain ⟨hb, hseen, hdup⟩ := hadm
        subst hb
        have hmem : p.packet_id ∈ m1.seen_packet_ids := by
          rw [hseen]; simp
        have hrun := runAddSame_dup p rest m1 hmem
        rcases hR : runAddSame m1 p rest with ⟨bs, mf⟩
        rw [hR] at hrun
        dsimp only at hrun
        refine ⟨by simp [hrun.1], ?_⟩
        dsimp only
        rw [hrun.2, hdup]
        simp [initManager, initStats]
  · have hf : p.can_relay = false := by
      cases hcr : p.can_relay
      · rfl
      · exact absurd hcr h
    rw [if_neg h, if_neg h]
    have hrun := runAddSame_noRelay p hf args initManager (by simp [initManager])
    refine ⟨hrun.1, ?_⟩
    rw [hrun.2]
    simp [initManager, initStats]

/-- A key absent from an association list is not found by `lookup`. -/
theorem lookup_none_of_not_mem {α : Type} (k : String) (l : List (String × α))
    (h : k ∉ l.map Prod.fst) : List.lookup k l = none := by
  induction l with
  | nil => rfl
  | cons a rest ih =>
      obtain ⟨k', v'⟩ := a
      simp only [List.map_cons, List.mem_cons] at h
      push_neg at h
      have hbe : (k == k') = false := by
        simp only [beq_eq_false_iff_ne, ne_eq]
        exact h.1
      simp only [List.lookup, hbe]
      exact ih h.2

/-- Deleting a key from a duplicate-free association list makes it
unfindable. -/
theorem dictErase_lookup_self {α : Type} (k : String) (l : List (String × α))
    (h : (l.map Prod.fst).Nodup) : List.lookup k (dictErase k l) = none := by
  induction l with
  | nil => rfl
  | cons a rest ih =>
      obtain ⟨k', v'⟩ := a
      simp only [List.map_cons, List.nodup_cons] at h
      simp only [dictErase]
      by_cases hk : k' = k
      · rw [if_pos hk]
        subst hk
        exact lookup_none_of_not_mem k' rest h.1
      · rw [if_neg hk]
        have hbe : (k == k') = false := by
          simp only [beq_eq_false_iff_ne, ne_eq]
          exact fun hh => hk hh.symm
        simp only [List.lookup, hbe]
        exact ih h.2

/-- Looking up the key just written by `dictSet` yields the new value. -/
theorem lookup_dictSet_self {α : Type} (k : String) (v : α)
    (l : List (String × α)) : List.lookup k (dictSet k v l) = some v := by
  induction l with
  | nil => simp [dictSet, List.lookup]
  | cons a rest ih =>
      obtain ⟨k', v'⟩ := a
      simp only [dictSet]
      by_cases hk : k' = k
      · rw [if_pos hk]
        simp [List.lookup]
      · rw [if_neg hk]
        have hbe : (k == k') = false := by
          simp only [beq_eq_false_iff_ne, ne_eq]
          exact fun hh => hk hh.symm
        simp only [List.lookup, hbe]
        exact ih

/-- C10 (confirmed): `remove_packet` — the path taken by the server
uploader on HTTP 200 — removes the packet id from `packet_cache`, from
its thread's entry in `thread_packets` and from `pending_acks`, but
leaves `seen_packet_ids` (and the statistics) untouched; consequently a
packet re-observed after a successful upload is dropped by `add_packet`
as a duplicate, with `duplicates_filtered` incremented, and is never
re-admitted.  Any non-200 status leaves the manager unchanged.  The
`Nodup` hypotheses state that the dict models hold each key once, as
Python dicts do. -/
theorem c10_upload_remove_keeps_seen :
    ∀ (m : PacketManager) (p : SOSPacket),
      (m.packet_cache.map Prod.fst).Nodup →
      (m.pending_acks.map Prod.fst).Nodup →
      List.lookup p.packet_id m.packet_cache = some p →
      (∀ status : Nat, status ≠ 200 → uploadPacketResult m p status = m) ∧
      (uploadPacketResult m p 200).seen_packet_ids = m.seen_packet_ids ∧
      List.lookup p.packet_id (uploadPacketResult m p 200).packet_cache = none ∧
      List.lookup p.packet_id (uploadPacketResult m p 200).pending_acks = none ∧
      List.lookup p.thread_id (uploadPacketResult m p 200).thread_packets =
        (List.lookup p.thread_id m.thread_packets).map
          (fun l => l.erase p.packet_id) ∧
      (∀ (q : SOSPacket) (tr : Option String) (sg : Option Rat) (now : Int),
        q.packet_id = p.packet_id → p.packet_id ∈ m.seen_packet_ids →
        ((uploadPacketResult m p 200).add_packet q tr sg now).1 = false ∧
        ((uploadPacketResult m p 200).add_packet q tr sg now).2.stats.duplicates_filtered
          = m.stats.duplicates_filtered + 1) := by
  intro m p hkc hkp hc
  have hup : uploadPacketResult m p 200 = m.remove_packet p.packet_id := by
    unfold uploadPacketResult
    rw [if_pos rfl]
  have hseen : (m.remove_packet p.packet_id).seen_packet_ids = m.seen_packet_ids := by
    unfold PacketManager.remove_packet
    rw [hc]
    dsimp only
    rcases List.lookup p.thread_id m.thread_packets with _ | lst <;>
      dsimp only <;> split_ifs <;> rfl
  have hstats : (m.remove_packet p.packet_id).stats = m.stats := by
    unfold PacketManager.remove_packet
    rw [hc]
    dsimp only
    rcases List.lookup p.thread_id m.thread_packets with _ | lst <;>
      dsimp only <;> split_ifs <;> rfl
  have hcache : (m.remove_packet p.packet_id).packet_cache =
      dictErase p.packet_id m.packet_cache := by
    unfold PacketManager.remove_packet
    rw [hc]
    dsimp only
    rcases List.lookup p.thread_id m.thread_packets with _ | lst <;>
      dsimp only <;> split_ifs <;> rfl
  have hpend : List.lookup p.packet_id (m.remove_packet p.packet_id).pending_acks
      = none := by
    unfold PacketManager.remove_packet
    rw [hc]
    dsimp only
    rcases List.lookup p.thread_id m.thread_packets with _ | lst <;>
      dsimp only <;> split_ifs <;>
      first
        | exact dictErase_lookup_self _ _ hkp
        | (rename_i hS
           rcases hO : List.lookup p.packet_id m.pending_acks with _ | w
           · rfl
           · rw [hO] at hS
             exact absurd rfl hS)
  have hthr : List.lookup p.thread_id (m.remove_packet p.packet_id).thread_packets =
      (List.lookup p.thread_id m.thread_packets).map
        (fun l => l.erase p.packet_id) := by
    unfold PacketManager.remove_packet
    rw [hc]
    dsimp only
    rcases hT : List.lookup p.thread_id m.thread_packets with _ | lst
    · dsimp only
      split_ifs <;> simpa using hT
    · dsimp only
      by_cases hmem : p.packet_id ∈ lst
      · rw [if_pos hmem]
        dsimp only
        split_ifs <;> simp [lookup_dictSet_self]
      · rw [if_neg hmem]
        dsimp only
        split_ifs <;> simp [List.erase_of_not_mem hmem, hT]
  refine ⟨?_, by rw [hup]; exact hseen, ?_, by rw [hup]; exact hpend,
    by rw [hup]; exact hthr, ?_⟩
  · intro status hs
    unfold uploadPacketResult
    rw [if_neg hs]
  · rw [hup, hcache]
    exact dictErase_lookup_self _ _ hkc
  · intro q tr sg now hq hmem
    have hm : q.packet_id ∈ (uploadPacketResult m p 200).seen_packet_ids := by
      rw [hq, hup, hseen]
      exact hmem
    rw [add_packet_dup_eq _ q tr sg now hm]
    refine ⟨rfl, ?_⟩
    dsimp only
    rw [hup, hstats]

/-- A fresh HIGH STATUS_UPDATE packet used in the C10 witness. -/
def pC10 : SOSPacket :=
  mkSOSPacket (fun s => s) 3 "th-c10" "nodeE" "uploaded"
    LocationArg.noLoc UrgencyLevel.HIGH PacketType.STATUS_UPDATE none

/-- The manager after admitting `pC10` into a fresh manager. -/
def mC10 : PacketManager := (initManager.add_packet pC10 none none 3).2

/-- C10 witness: the theorem applied to the concrete post-admission
manager `mC10` and its cached packet `pC10`. -/
theorem c10_upload_remove_keeps_seen_witness :
    (∀ status : Nat, status ≠ 200 → uploadPacketResult mC10 pC10 status = mC10) ∧
    (uploadPacketResult mC10 pC10 200).seen_packet_ids = mC10.seen_packet_ids ∧
    List.lookup pC10.packet_id (uploadPacketResult mC10 pC10 200).packet_cache = none ∧
    List.lookup pC10.packet_id (uploadPacketResult mC10 pC10 200).pending_acks = none ∧
    List.lookup pC10.thread_id (uploadPacketResult mC10 pC10 200).thread_packets =
      (List.lookup pC10.thread_id mC10.thread_packets).map
        (fun l => l.erase pC10.packet_id) ∧
    (∀ (q : SOSPacket) (tr : Option String) (sg : Option Rat) (now : Int),
      q.packet_id = pC10.packet_id → pC10.packet_id ∈ mC10.seen_packet_ids →
      ((uploadPacketResult mC10 pC10 200).add_packet q tr sg now).1 = false ∧
      ((uploadPacketResult mC10 pC10 200).add_packet q tr sg now).2.stats.duplicates_filtered
        = mC10.stats.duplicates_filtered + 1) :=
  c10_upload_remove_keeps_seen mC10 pC10 (by decide) (by decide) (by decide)

/-- A packet whose sender is the local node `nodeSelf`. -/
def pC9 : SOSPacket :=
  mkSOSPacket (fun s => s) 1 "th-c9" "nodeSelf" "loopback"
    LocationArg.noLoc UrgencyLevel.HIGH PacketType.SOS none

/-- C9 counterexample: the BLE receiver enqueues a successfully decoded
packet even when its sender is the local node — there is no self-drop in
`BLEReceiver._on_notification_received` — so not every transport
receiver performs loopback suppression. -/
theorem c9_counterexample :
    pC9.sender_id = "nodeSelf" ∧
    bleReceiveStep "nodeSelf" [] pC9 = [pC9] := by
  decide

/-- C9 (amended): the UDP and GGWave receivers drop a decoded packet
whose sender is the local node before enqueueing it, but the BLE
receiver enqueues it unconditionally; for packets arriving over BLE the
self-drop happens only later, in the coordinator's message-processing
loop (`client.py`), which skips packets whose `sender_id` is the local
node before calling `add_packet`. -/
theorem c9_self_drop_by_transport :
    ∀ (node_id : String) (queue : List SOSPacket) (p : SOSPacket),
      p.sender_id = node_id →
      udpReceiveStep node_id queue p = queue ∧
      ggwaveReceiveStep node_id queue p = queue ∧
      bleReceiveStep node_id queue p = queue ++ [p] ∧
      clientProcessesPacket node_id p = false := by
  intro n q p h
  refine ⟨?_, ?_, rfl, ?_⟩
  · simp [udpReceiveStep, h]
  · simp [ggwaveReceiveStep, h]
  · simp [clientProcessesPacket, h]

/-- C9 witness: the amended theorem applied to the concrete loopback
packet `pC9`. -/
theorem c9_self_drop_by_transport_witness :
    udpReceiveStep "nodeSelf" [] pC9 = [] ∧
    ggwaveReceiveStep "nodeSelf" [] pC9 = [] ∧
    bleReceiveStep "nodeSelf" [] pC9 = [] ++ [pC9] ∧
    clientProcessesPacket "nodeSelf" pC9 = false :=
  c9_self_drop_by_transport "nodeSelf" [] pC9 (by decide)

/-- A BLE chunk buffer holding indices 0 and 2 (index 1 missing) for
transfer id `x`. -/
def bufC8 : BLEBuffer := [("x", [(0, "a"), (2, "b")])]

/-- C8 counterexample: an `END` for a transfer with a missing index
produces no packet but also leaves the buffered chunks in place — the
buffer entry for the transfer id is retained, not removed as claimed. -/
theorem c8_counterexample :
    (bleHandleEnd bufC8 "x" 3).1 = none ∧
    (bleHandleEnd bufC8 "x" 3).2 = bufC8 ∧
    (List.lookup "x" (bleHandleEnd bufC8 "x" 3).2).isSome = true := by
  decide

/-- The reconstruction loop succeeds exactly when every index below
`total` is present in the chunk buffer. -/
theorem reconstructChunks_isSome (chunks : List (Nat × String)) (total : Nat) :
    (reconstructChunks chunks total).isSome =
      ((List.range total).all fun i => (List.lookup i chunks).isSome) := by
  induction total with
  | zero => rfl
  | succ n ih =>
      unfold reconstructChunks at ih ⊢
      rw [List.range_succ, List.foldl_append, List.all_append]
      simp only [List.foldl_cons, List.foldl_nil, List.all_cons, List.all_nil,
        Bool.and_true]
      rw [← ih]
      rcases hA : List.foldl
          (fun acc i =>
            match acc, List.lookup i chunks with
            | some s, some c => some (s ++ c)
            | _, _ => none)
          (some "") (List.range n) with _ | s <;>
        rcases hB : List.lookup n chunks with _ | c <;>
        rw [hA] <;> simp

/-- Updating an existing chunk index keeps the chunk-dict length. -/
theorem natDictSet_length_of_isSome (k : Nat) (v : String)
    (l : List (Nat × String)) (h : (List.lookup k l).isSome = true) :
    (natDictSet k v l).length = l.length := by
  induction l with
  | nil => simp [List.lookup] at h
  | cons a rest ih =>
      obtain ⟨k', v'⟩ := a
      simp only [natDictSet]
      by_cases hk : k' = k
      · simp [hk]
      · rw [if_neg hk]
        simp only [List.length_cons]
        have hbe : (k == k') = false := by
          simp only [beq_eq_false_iff_ne, ne_eq]
          exact fun hh => hk hh.symm
        simp only [List.lookup, hbe] at h
        rw [ih h]

/-- C8 (amended): on an `END`, reassembly succeeds exactly when the
transfer has a buffer entry holding exactly `total_chunks` distinct
indices `0..N-1`; duplicate chunk indices overwrite the previous data
rather than invalidating the transfer.  On success the buffer entry is
deleted; in every failure case (no entry, wrong chunk count, missing
index) the `END` is ignored and the buffered chunks are retained — the
buffer entry is *not* removed, so a later, matching `END` can still
succeed. -/
theorem c8_end_semantics :
    ∀ (buffer : BLEBuffer) (client_id : String) (total : Nat),
      ((bleHandleEnd buffer client_id total).1.isSome =
        bleReassemblyOk buffer client_id total) ∧
      ((bleHandleEnd buffer client_id total).2 =
        if bleReassemblyOk buffer client_id total then
          dictErase client_id buffer
        else buffer) ∧
      (∀ (chunks : List (Nat × String)) (n : Nat) (d : String),
        (List.lookup n chunks).isSome = true →
        (natDictSet n d chunks).length = chunks.length) := by
  intro buf c total
  refine ⟨?_, ?_, fun chunks n d h => natDictSet_length_of_isSome n d chunks h⟩ <;>
  · unfold bleHandleEnd bleReassemblyOk
    rcases hL : List.lookup c buf with _ | chunks
    · simp
    · dsimp only
      by_cases hlen : chunks.length = total
      · rw [if_pos hlen]
        rcases hR : reconstructChunks chunks total with _ | s
        · have hAll := reconstructChunks_isSome chunks total
          rw [hR] at hAll
          simp [hlen, ← hAll]
        · have hAll := reconstructChunks_isSome chunks total
          rw [hR] at hAll
          simp [hlen, ← hAll]
      · rw [if_neg hlen]
        simp [hlen]

/-- C8 witness: the END semantics applied to the concrete buffer
`bufC8`, and the duplicate-overwrite fact at a concrete chunk list. -/
theorem c8_end_semantics_witness :
    ((bleHandleEnd bufC8 "x" 3).1.isSome = bleReassemblyOk bufC8 "x" 3) ∧
    ((bleHandleEnd bufC8 "x" 3).2 =
      if bleReassemblyOk bufC8 "x" 3 then dictErase "x" bufC8 else bufC8) ∧
    (natDictSet 0 "z" [(0, "a"), (2, "b")]).length = [(0, "a"), (2, "b")].length :=
  ⟨(c8_end_semantics bufC8 "x" 3).1, (c8_end_semantics bufC8 "x" 3).2.1,
   (c8_end_semantics bufC8 "x" 3).2.2 [(0, "a"), (2, "b")] 0 "z" (by decide)⟩

/-- The i-th STATUS_UPDATE packet from sender `F` (distinct ids, HIGH
urgency, relayable). -/
def pC4 (i : Nat) : SOSPacket :=
  mkSOSPacket (fun s => s) 0 "th-c4" "F" ("status " ++ toString i)
    LocationArg.noLoc UrgencyLevel.HIGH PacketType.STATUS_UPDATE none

/-- Twelve packets from `F` within five seconds (eleven at t=0, one at
t=5), then a thirteenth offered at t=61. -/
def callsC4bad : List (SOSPacket × Option String × Option Rat × Int) :=
  ((List.range 11).map fun i => (pC4 i, none, none, (0 : Int))) ++
    [(pC4 11, none, none, 5), (pC4 12, none, none, 61)]

/-- The same twelve packets, with the next offer at t=66 instead. -/
def callsC4good : List (SOSPacket × Option String × Option Rat × Int) :=
  ((List.range 11).map fun i => (pC4 i, none, none, (0 : Int))) ++
    [(pC4 11, none, none, 5), (pC4 12, none, none, 66)]

/-- C4 counterexample: after 12 packets within 5 s (the last at t=5),
the sender's packet offered at t=61 is dropped — 61 − 5 = 56 ≤ 60, so
the window has not reset (the reset is measured from the sender's last
offered packet, not from the window start), contradicting the claimed
admission at t=61. -/
theorem c4_counterexample :
    (runAddCalls initManager callsC4bad).1 =
      List.replicate 10 true ++ [false, false, false] ∧
    (runAddCalls initManager callsC4bad).1.getLast? = some false ∧
    (runAddCalls initManager callsC4bad).2.stats.rate_limited = 3 := by
  decide

/-- C4 (amended): of 12 packets a sender emits within 5 s, exactly 10
are admitted and 2 dropped with `rate_limited` incremented; but the
window is measured from the sender's *last offered packet* (admitted or
dropped — every offer refreshes the timestamp), not from the window
start, so after the 12th packet at t=5 the next admission requires an
offer strictly after t=65: the packet offered at t=66 is admitted, while
one at t=61 is not.  The counter resets to a fresh count exactly when
`now − last > 60`, and every check stamps `now` as the sender's last
packet time. -/
theorem c4_rate_limit_semantics :
    ((runAddCalls initManager callsC4good).1 =
      List.replicate 10 true ++ [false, false, true]) ∧
    ((runAddCalls initManager callsC4good).2.stats.rate_limited = 2) ∧
    (∀ (m : PacketManager) (node : String) (now last : Int),
      List.lookup node m.node_last_packet = some last →
      now - last ≤ 60 →
      List.lookup node (m.check_rate_limit node now).2.node_packet_count =
        some ((List.lookup node m.node_packet_count).getD 0 + 1)) ∧
    (∀ (m : PacketManager) (node : String) (now last : Int),
      List.lookup node m.node_last_packet = some last →
      now - last > 60 →
      List.lookup node (m.check_rate_limit node now).2.node_packet_count =
        some 1) ∧
    (∀ (m : PacketManager) (node : String) (now : Int),
      List.lookup node (m.check_rate_limit node now).2.node_last_packet =
        some now) := by
  refine ⟨by decide, by decide, ?_, ?_, ?_⟩
  · intro m node now last hL hle
    unfold PacketManager.check_rate_limit
    rw [hL]
    dsimp only
    rw [if_neg (by omega : ¬ now - last > 60)]
    split_ifs <;> exact lookup_dictSet_self _ _ _
  · intro m node now last hL hgt
    unfold PacketManager.check_rate_limit
    rw [hL]
    dsimp only
    rw [if_pos hgt]
    split_ifs <;> exact lookup_dictSet_self _ _ _
  · intro m node now
    unfold PacketManager.check_rate_limit
    dsimp only
    split_ifs <;> exact lookup_dictSet_self _ _ _

/-- A manager that has seen one packet from sender `F` at t=0. -/
def mC4w : PacketManager := (initManager.check_rate_limit "F" 0).2

/-- C4 witness: the window characterization applied to `mC4w`. -/
theorem c4_rate_limit_semantics_witness :
    (List.lookup "F" (mC4w.check_rate_limit "F" 50).2.node_packet_count =
      some ((List.lookup "F" mC4w.node_packet_count).getD 0 + 1)) ∧
    (List.lookup "F" (mC4w.check_rate_limit "F" 100).2.node_packet_count =
      some 1) ∧
    (List.lookup "F" (mC4w.check_rate_limit "F" 50).2.node_last_packet =
      some 50) :=
  ⟨c4_rate_limit_semantics.2.2.1 mC4w "F" 50 0 (by decide) (by decide),
   c4_rate_limit_semantics.2.2.2.1 mC4w "F" 100 0 (by decide) (by decide),
   c4_rate_limit_semantics.2.2.2.2 mC4w "F" 50⟩

/-- `remove_packet` never touches `seen_packet_ids`. -/
theorem remove_packet_seen (m : PacketManager) (pid : String) :
    (m.remove_packet pid).seen_packet_ids = m.seen_packet_ids := by
  unfold PacketManager.remove_packet
  rcases List.lookup pid m.packet_cache with _ | packet
  · rfl
  · dsimp only
    rcases List.lookup packet.thread_id m.thread_packets with _ | lst <;>
      dsimp only <;> split_ifs <;> rfl

/-- The overflow-eviction loop only ever shrinks the seen set. -/
theorem prune_loop_seen_subset :
    ∀ (fuel : Nat) (m : PacketManager) (pid : String),
      pid ∈ (PacketManager.prune_loop fuel m).seen_packet_ids →
      pid ∈ m.seen_packet_ids := by
  intro fuel
  induction fuel with
  | zero => intro m pid h; exact h
  | succ n ih =>
      intro m pid h
      unfold PacketManager.prune_loop at h
      split_ifs at h
      · rcases hM : minScoreId m.packet_cache with _ | ks
        · rw [hM] at h
          exact h
        · rw [hM] at h
          dsimp only at h
          have h2 := ih _ _ h
          dsimp only at h2
          have h3 := List.mem_of_mem_erase h2
          rw [remove_packet_seen] at h3
          exact h3
      · exact h

/-- The expiry sweep of `_prune_cache` only ever shrinks the seen set. -/
theorem prune_expired_seen_subset :
    ∀ (ids : List String) (m : PacketManager) (pid : String),
      pid ∈ (ids.foldl
        (fun acc pid =>
          let acc := acc.remove_packet pid
          { acc with seen_packet_ids := acc.seen_packet_ids.erase pid })
        m).seen_packet_ids →
      pid ∈ m.seen_packet_ids := by
  intro ids
  induction ids with
  | nil => intro m pid h; exact h
  | cons a rest ih =>
      intro m pid h
      simp only [List.foldl_cons] at h
      have h2 := ih _ _ h
      dsimp only at h2
      have h3 := List.mem_of_mem_erase h2
      rw [remove_packet_seen] at h3
      exact h3

/-- `_prune_cache` only ever shrinks the seen set: every id it evicts
(expired or overflow victim) is discarded from `seen_packet_ids`, and no
id is added. -/
theorem prune_cache_seen_subset (m : PacketManager) (now : Int) (pid : String)
    (h : pid ∈ (m.prune_cache now).seen_packet_ids) :
    pid ∈ m.seen_packet_ids := by
  unfold PacketManager.prune_cache at h
  exact prune_expired_seen_subset _ _ _ (prune_loop_seen_subset _ _ _ h)

/-- The i-th of 101 packets from 101 distinct senders: packet 0 has LOW
urgency (the unique minimum priority), the rest HIGH. -/
def pC5 (i : Nat) : SOSPacket :=
  mkSOSPacket (fun s => s) 0 ("th5-" ++ toString i) ("s" ++ toString i)
    ("m" ++ toString i) LocationArg.noLoc
    (if i = 0 then UrgencyLevel.LOW else UrgencyLevel.HIGH)
    PacketType.STATUS_UPDATE none

/-- 101 admissions at t=0; the 101st pushes the cache over
`PACKET_CACHE_LIMIT` and triggers eviction of the minimum-priority
packet, `pC5 0`. -/
def callsC5 : List (SOSPacket × Option String × Option Rat × Int) :=
  (List.range 101).map fun i => (pC5 i, none, none, (0 : Int))

/-- The manager after the 101 admissions (and the eviction of `pC5 0`). -/
def mC5 : PacketManager := (runAddCalls initManager callsC5).2

set_option maxRecDepth 1000000 in
/-- C5 counterexample: after cache eviction removed `pC5 0`, a
subsequent observation of the same packet id is *admitted again* —
returning Admitted, not Dropped(Duplicate) — because eviction discarded
the id from `seen_packet_ids`. -/
theorem c5_counterexample :
    (mC5.add_packet (pC5 0) none none 0).1 = true := by
  decide

set_option maxRecDepth 1000000 in
/-- C5 (amended): cache eviction (`_prune_cache`) discards the evicted
packet's id from `seen_packet_ids` along with the cache entry — on both
the expiry path and the minimum-priority overflow path — so a subsequent
observation of that packet id is admitted afresh rather than dropped as
a duplicate.  Concretely, after 101 admissions the overflow victim
`pC5 0` is out of the cache and out of the seen set and is re-admitted
on re-observation; in general, pruning only ever shrinks the seen set. -/
theorem c5_eviction_discards_seen :
    ((pC5 0).packet_id ∉ mC5.seen_packet_ids) ∧
    (List.lookup (pC5 0).packet_id mC5.packet_cache = none) ∧
    (mC5.packet_cache.length = 100) ∧
    (∀ (m : PacketManager) (now : Int) (pid : String),
      pid ∈ (m.prune_cache now).seen_packet_ids → pid ∈ m.seen_packet_ids) := by
  refine ⟨by decide, by decide, by decide, ?_⟩
  intro m now pid h
  exact prune_cache_seen_subset m now pid h

/-- A manager holding one admitted packet, for the C5 witness. -/
def mC5w : PacketManager := (initManager.add_packet (pC5 1) none none 0).2

/-- C5 witness: the pruning monotonicity applied to the concrete state
`mC5w`, whose single cached packet survives a prune. -/
theorem c5_eviction_discards_seen_witness :
    (pC5 1).packet_id ∈ mC5w.seen_packet_ids :=
  c5_eviction_discards_seen.2.2.2 mC5w 0 (pC5 1).packet_id (by decide)

/-- Parsing the wire value of a packet type gives the type back. -/
theorem packetType_fromValue_value (pt : PacketType) :
    PacketType.fromValue pt.value = some pt := by
  cases pt <;> rfl

/-- Parsing the wire value of an urgency level gives the level back. -/
theorem urgencyLevel_fromValue_value (u : UrgencyLevel) :
    UrgencyLevel.fromValue u.value = some u := by
  cases u <;> rfl

set_option maxRecDepth 4000 in
/-- C7 (confirmed): for every packet produced by the constructor — with
the runtime-populated `received_via` and `signal_strength` fields
allowed to be populated — decoding its encoding restores it exactly:
`from_dict (to_dict p) = some p`, for any environment parameters of the
decoding side.  The only constructor precondition is that the fresh
UUID modelled by `freshThread` is a nonempty string, which a real UUID
always is. -/
theorem c7_encode_decode_roundtrip :
    ∀ (hashFn hashFn2 : String → String) (now now2 : Int)
      (fresh fresh2 : String) (genNames : Nat → String)
      (md5 : List Nat → String) (sender msg : String) (loc : LocationArg)
      (ug : UrgencyLevel) (pt : PacketType) (tid : Option String)
      (rv : List String) (ss : List (String × Rat)),
      fresh ≠ "" →
      SOSPacket.from_dict hashFn2 now2 fresh2 genNames md5
          (SOSPacket.to_dict
            { mkSOSPacket hashFn now fresh sender msg loc ug pt tid with
              received_via := rv, signal_strength := ss }) =
        some { mkSOSPacket hashFn now fresh sender msg loc ug pt tid with
              received_via := rv, signal_strength := ss } := by
  intro hashFn hashFn2 now now2 fresh fresh2 genNames md5 sender msg loc ug pt
    tid rv ss hfresh
  rcases loc with _ | s | g <;> rcases tid with _ | t <;>
    simp [SOSPacket.from_dict, SOSPacket.to_dict, mkSOSPacket,
      packetType_fromValue_value, urgencyLevel_fromValue_value,
      GPSLocation.to_dict, GPSLocation.from_dict, GPSLocation.make, hfresh] <;>
    split_ifs <;>
    simp_all

/-- A concrete GPS location for the C7 witness. -/
def gC7 : GPSLocation :=
  { latitude := 1, longitude := 2, altitude := none, accuracy := some 3,
    timestamp := 5 }

/-- C7 witness: the round trip at a concrete SOS packet carrying a GPS
location, a populated `received_via` and a populated `signal_strength`. -/
theorem c7_encode_decode_roundtrip_witness :
    SOSPacket.from_dict (fun s => s) 99 "uuid2" (fun _ => "gen")
        (fun _ => "md5")
        (SOSPacket.to_dict
          { mkSOSPacket (fun s => s) 7 "uuid1" "A" "help"
              (LocationArg.gps gC7) UrgencyLevel.HIGH PacketType.SOS none with
            received_via := ["udp"], signal_strength := [("B", 1)] }) =
      some { mkSOSPacket (fun s => s) 7 "uuid1" "A" "help"
              (LocationArg.gps gC7) UrgencyLevel.HIGH PacketType.SOS none with
            received_via := ["udp"], signal_strength := [("B", 1)] } :=
  c7_encode_decode_roundtrip (fun s => s) (fun s => s) 7 99 "uuid1" "uuid2"
    (fun _ => "gen") (fun _ => "md5") "A" "help" (LocationArg.gps gC7)
    UrgencyLevel.HIGH PacketType.SOS none ["udp"] [("B", 1)] (by decide)

/-- Iterated extraction of the heap minimum (the entry `get` removes),
driven by explicit fuel. -/
def popAllEntries : Nat → List (Int × Nat × SOSPacket) →
    List (Int × Nat × SOSPacket)
  | 0, _ => []
  | fuel + 1, l =>
      match popMinEntry l with
      | none => []
      | some (e, r) => e :: popAllEntries fuel r

/-- `popMinEntry` of a nonempty list always returns an entry. -/
theorem popMinEntry_isSome (a : Int × Nat × SOSPacket)
    (l : List (Int × Nat × SOSPacket)) :
    (popMinEntry (a :: l)).isSome = true := by
  unfold popMinEntry
  rcases hM : popMinEntry l with _ | x
  · rfl
  · rcases x with ⟨m, r⟩
    dsimp only
    split_ifs <;> rfl

/-- `popMinEntry` returns an element of the list together with the rest:
the extracted entry and the remainder form a permutation of the input. -/
theorem popMinEntry_perm :
    ∀ (l : List (Int × Nat × SOSPacket)) (e : Int × Nat × SOSPacket)
      (r : List (Int × Nat × SOSPacket)),
      popMinEntry l = some (e, r) → (e :: r).Perm l := by
  intro l
  induction l with
  | nil => intro e r h; simp [popMinEntry] at h
  | cons a rest ih =>
      intro e r h
      unfold popMinEntry at h
      rcases hM : popMinEntry rest with _ | mr
      · rw [hM] at h
        simp only [Option.some.injEq, Prod.mk.injEq] at h
        obtain ⟨he, hr⟩ := h
        subst he
        subst hr
        rcases rest with _ | ⟨b, brest⟩
        · exact List.Perm.refl _
        · have hs := popMinEntry_isSome b brest
          rw [hM] at hs
          simp at hs
      · rcases mr with ⟨m2, r2⟩
        rw [hM] at h
        dsimp only at h
        split_ifs at h
        · simp only [Option.some.injEq, Prod.mk.injEq] at h
          obtain ⟨he, hr⟩ := h
          subst he
          subst hr
          exact List.Perm.refl _
        · simp only [Option.some.injEq, Prod.mk.injEq] at h
          obtain ⟨he, hr⟩ := h
          subst he
          subst hr
          have hp := ih m2 r2 hM
          have h1 : List.Perm (m2 :: a :: r2) (a :: m2 :: r2) :=
            List.Perm.swap a m2 r2
          exact h1.trans (List.Perm.cons a hp)

/-- The heap order is transitive. -/
theorem entryLe_trans (a b c : Int × Nat × SOSPacket)
    (h1 : entryLe a b = true) (h2 : entryLe b c = true) :
    entryLe a c = true := by
  unfold entryLe at h1 h2 ⊢
  simp only [Bool.or_eq_true, Bool.and_eq_true, decide_eq_true_eq] at h1 h2 ⊢
  omega

/-- The heap order is total. -/
theorem entryLe_total (a b : Int × Nat × SOSPacket)
    (h : entryLe a b = false) : entryLe b a = true := by
  unfold entryLe at h ⊢
  simp only [Bool.or_eq_false_iff, Bool.and_eq_false_iff,
    decide_eq_false_iff_not] at h
  simp only [Bool.or_eq_true, Bool.and_eq_true, decide_eq_true_eq]
  omega

/-- The entry extracted by `popMinEntry` is a lower bound (in the heap
order) of everything left behind. -/
theorem popMinEntry_min :
    ∀ (l : List (Int × Nat × SOSPacket)) (e : Int × Nat × SOSPacket)
      (r : List (Int × Nat × SOSPacket)),
      popMinEntry l = some (e, r) → ∀ x ∈ r, entryLe e x = true := by
  intro l
  induction l with
  | nil => intro e r h; simp [popMinEntry] at h
  | cons a rest ih =>
      intro e r h x hx
      unfold popMinEntry at h
      rcases hM : popMinEntry rest with _ | mr
      · rw [hM] at h
        simp only [Option.some.injEq, Prod.mk.injEq] at h
        obtain ⟨he, hr⟩ := h
        subst hr
        simp at hx
      · rcases mr with ⟨m2, r2⟩
        rw [hM] at h
        dsimp only at h
        split_ifs at h with hle
        · simp only [Option.some.injEq, Prod.mk.injEq] at h
          obtain ⟨he, hr⟩ := h
          subst he
          subst hr
          have hperm := popMinEntry_perm rest m2 r2 hM
          have hx2 : x ∈ m2 :: r2 := (hperm.mem_iff).mpr hx
          rcases List.mem_cons.mp hx2 with hxm | hxr
          · subst hxm
            exact hle
          · exact entryLe_trans a m2 x hle (ih m2 r2 hM x hxr)
        · simp only [Option.some.injEq, Prod.mk.injEq] at h
          obtain ⟨he, hr⟩ := h
          subst he
          subst hr
          have hf : entryLe a m2 = false := by
            cases hE : entryLe a m2
            · rfl
            · exact absurd hE hle
          rcases List.mem_cons.mp hx with hxa | hxr
          · subst hxa
            exact entryLe_total x m2 hf
          · exact ih m2 r2 hM x hxr

/-- Everything the pop loop returns was in the queue. -/
theorem popAllEntries_mem :
    ∀ (fuel : Nat) (l : List (Int × Nat × SOSPacket))
      (x : Int × Nat × SOSPacket),
      x ∈ popAllEntries fuel l → x ∈ l := by
  intro fuel
  induction fuel with
  | zero => intro l x h; simp [popAllEntries] at h
  | succ n ih =>
      intro l x h
      unfold popAllEntries at h
      rcases hM : popMinEntry l with _ | er
      · rw [hM] at h
        simp at h
      · rcases er with ⟨e, r⟩
        rw [hM] at h
        have hperm := popMinEntry_perm l e r hM
        rcases List.mem_cons.mp h with hxe | hxr
        · subst hxe
          exact hperm.mem_iff.mp (List.mem_cons_self x r)
        · exact hperm.mem_iff.mp (List.mem_cons_of_mem e (ih r x hxr))

/-- Successive pops come out in heap order: the popped sequence is
pairwise ordered by `entryLe`. -/
theorem popAllEntries_sorted :
    ∀ (fuel : Nat) (l : List (Int × Nat × SOSPacket)),
      List.Pairwise (fun a b => entryLe a b = true) (popAllEntries fuel l) := by
  intro fuel
  induction fuel with
  | zero => intro l; simp [popAllEntries]
  | succ n ih =>
      intro l
      unfold popAllEntries
      rcases hM : popMinEntry l with _ | er
      · simp
      · rcases er with ⟨e, r⟩
        refine List.Pairwise.cons ?_ (ih r)
        intro x hx
        exact popMinEntry_min l e r hM x (popAllEntries_mem n r x hx)

/-- Popping with fuel equal to the queue size returns a permutation of
the queue's entries. -/
theorem popAllEntries_perm :
    ∀ (n : Nat) (l : List (Int × Nat × SOSPacket)), l.length = n →
      (popAllEntries n l).Perm l := by
  intro n
  induction n with
  | zero =>
      intro l hl
      rw [List.length_eq_zero] at hl
      subst hl
      simp [popAllEntries]
  | succ k ih =>
      intro l hl
      unfold popAllEntries
      rcases hM : popMinEntry l with _ | er
      · rcases l with _ | ⟨a, rest⟩
        · simp at hl
        · have hs := popMinEntry_isSome a rest
          rw [hM] at hs
          simp at hs
      · rcases er with ⟨e, r⟩
        have hperm := popMinEntry_perm l e r hM
        have hr : r.length = k := by
          have := hperm.length_eq
          simp at this
          omega
        exact (List.Perm.cons e (ih r hr)).trans hperm

/-- Well-formedness of a priority queue reached by `put`s: every stored
priority is the negated priority score of its packet, and the insertion
indices are distinct and below the running index. -/
def PQWellFormed (q : PacketPriorityQueue) : Prop :=
  (∀ e ∈ q.queue, e.1 = -(e.2.2.get_priority_score)) ∧
  (∀ e ∈ q.queue, e.2.1 < q.index) ∧
  (q.queue.map (fun e => e.2.1)).Nodup

/-- The empty queue is well formed. -/
theorem pq_wf_empty : PQWellFormed emptyPQ := by
  refine ⟨?_, ?_, ?_⟩ <;> simp [emptyPQ]

/-- `put` preserves queue well-formedness. -/
theorem pq_wf_put (q : PacketPriorityQueue) (p : SOSPacket)
    (h : PQWellFormed q) : PQWellFormed (q.put p) := by
  obtain ⟨h1, h2, h3⟩ := h
  refine ⟨?_, ?_, ?_⟩
  · intro e he
    simp only [PacketPriorityQueue.put, List.mem_append,
      List.mem_singleton] at he
    rcases he with he | he
    · exact h1 e he
    · subst he
      rfl
  · intro e he
    simp only [PacketPriorityQueue.put, List.mem_append,
      List.mem_singleton] at he
    rcases he with he | he
    · have := h2 e he
      simp only [PacketPriorityQueue.put]
      omega
    · subst he
      simp [PacketPriorityQueue.put]
  · simp only [PacketPriorityQueue.put, List.map_append, List.map_cons,
      List.map_nil]
    rw [List.nodup_append]
    refine ⟨h3, List.nodup_singleton _, ?_⟩
    intro a ha hb
    simp only [List.mem_singleton] at hb
    subst hb
    simp only [List.mem_map] at ha
    obtain ⟨e, he, hae⟩ := ha
    have := h2 e he
    omega

/-- Folding `put` over any packet list preserves well-formedness. -/
theorem pq_wf_pushAll :
    ∀ (ps : List SOSPacket) (q : PacketPriorityQueue), PQWellFormed q →
      PQWellFormed (ps.foldl PacketPriorityQueue.put q) := by
  intro ps
  induction ps with
  | nil => intro q h; exact h
  | cons p rest ih =>
      intro q h
      simp only [List.foldl_cons]
      exact ih (q.put p) (pq_wf_put q p h)

/-- An E5 packet: a STATUS_UPDATE from sender E with the given tag. -/
def e5pkt (tag : String) (u : UrgencyLevel) : SOSPacket :=
  mkSOSPacket (fun s => s) 0 "th-e5" "E" tag LocationArg.noLoc u
    PacketType.STATUS_UPDATE none

/-- The E5 queue: LOW#1, CRITICAL#2, HIGH#3, LOW#4 pushed (in that
order) into an empty priority queue. -/
def qE5 : PacketPriorityQueue :=
  [e5pkt "LOW#1" UrgencyLevel.LOW, e5pkt "CRITICAL#2" UrgencyLevel.CRITICAL,
   e5pkt "HIGH#3" UrgencyLevel.HIGH, e5pkt "LOW#4" UrgencyLevel.LOW].foldl
    PacketPriorityQueue.put emptyPQ

/-- C6 (confirmed): for any batch of packets pushed into an empty
priority queue, successive pops return entries in non-increasing
`priority_score` order, with score ties broken by strictly increasing
push order; in particular pushing LOW#1, CRITICAL#2, HIGH#3, LOW#4
yields pops CRITICAL#2, HIGH#3, LOW#1, LOW#4 and then an empty queue. -/
theorem c6_priority_queue_order :
    (∀ ps : List SOSPacket,
      List.Pairwise
        (fun a b : Int × Nat × SOSPacket =>
          b.2.2.get_priority_score < a.2.2.get_priority_score ∨
          (a.2.2.get_priority_score = b.2.2.get_priority_score ∧
            a.2.1 < b.2.1))
        (popAllEntries (ps.foldl PacketPriorityQueue.put emptyPQ).queue.length
          (ps.foldl PacketPriorityQueue.put emptyPQ).queue)) ∧
    (qE5.get.1.map SOSPacket.message = some "CRITICAL#2" ∧
     qE5.get.2.get.1.map SOSPacket.message = some "HIGH#3" ∧
     qE5.get.2.get.2.get.1.map SOSPacket.message = some "LOW#1" ∧
     qE5.get.2.get.2.get.2.get.1.map SOSPacket.message = some "LOW#4" ∧
     qE5.get.2.get.2.get.2.get.2.get.1 = none) := by
  constructor
  · intro ps
    have hwf := pq_wf_pushAll ps emptyPQ pq_wf_empty
    obtain ⟨hprio, hbound, hnodup⟩ := hwf
    have hsorted := popAllEntries_sorted
      (ps.foldl PacketPriorityQueue.put emptyPQ).queue.length
      (ps.foldl PacketPriorityQueue.put emptyPQ).queue
    have hperm := popAllEntries_perm
      (ps.foldl PacketPriorityQueue.put emptyPQ).queue.length
      (ps.foldl PacketPriorityQueue.put emptyPQ).queue rfl
    have hnd2 := (hperm.map (fun e : Int × Nat × SOSPacket => e.2.1)).nodup_iff.mpr hnodup
    have hne := List.pairwise_map.mp hnd2
    have hcomb := hsorted.and hne
    refine hcomb.imp_of_mem ?_
    intro a b ha hb hab
    obtain ⟨hle, hneq⟩ := hab
    have hpa := hprio a (popAllEntries_mem _ _ a ha)
    have hpb := hprio b (popAllEntries_mem _ _ b hb)
    unfold entryLe at hle
    simp only [Bool.or_eq_true, Bool.and_eq_true, decide_eq_true_eq] at hle
    rw [hpa, hpb] at hle
    rcases hle with hlt | ⟨heq, hidx⟩
    · left
      omega
    · right
      refine ⟨by omega, ?_⟩
      rcases Nat.lt_or_ge a.2.1 b.2.1 with hx | hx
      · exact hx
      · rcases Nat.eq_or_lt_of_le hx with hx2 | hx2
        · exact absurd hx2.symm hneq
        · omega
  · refine ⟨?_, ?_, ?_, ?_, ?_⟩ <;> decide
